import Mathlib

/-!
# findy-agent: endpoint addresses, signature timestamps and the connection protocol

A shallow embedding of

* `agent/endp/endpoint.go` (`Addr`, `NewServerAddr`, `NewClientAddr`, `Address`, `Valid`,
  `IsDID`, `IsInEndpoints`),
* `std/didexchange/v0/response_impl.go` (`verifyTimestamp`, `signAndStamp`,
  `responseImpl.verifySignature`, `connectionFromSignedData`),
* `agent/sec/pipe.go` (`Pipe.SignAndStamp`, `Pipe.Pack`, `Pipe.Unpack`),
* `agent/comm/calls.go` (`checkHTTPStatus`),
* `protocol/connection/connection_protocol.go` (`startConnectionProtocol`,
  `handleConnectionRequest`, `handleConnectionResponse`), as functions that log their calls
  into the packages around them, and `createConnectionTask`, `fillPairwiseStatus`,
* `std/didexchange/signature.go` (`ConnectionSignature.verifySignature`),
* `server/server.go` (`protocolTransport`, `logRequestInfo`, `saveIncoming`),
* the state store and the Representative registry of package `psm`, modelled from the
  specification,

together with the theorems that settle the specification's statements about them.

Conventions of the embedding:

* a Go `string` is a Lean `String` (valid UTF-8 text); Go's `len` is the UTF-8 byte size;
* a Go `byte` is a `Fin 256`, a `[]byte` is a `List Byte`;
* an `int64` is an `Int` in `[-2^63, 2^63)`, a `uint64` is a `Nat` below `2^64`; conversions
  and the wrapping subtraction are written out;
* `time.Now().Unix()` is read once per call and is passed as the parameter `now`;
* a function that can return an error or panic returns `Except Failure _`.
-/

namespace Findy

/-- The two ways a Go call can fail to produce its result. -/
inductive Failure where
  | error (msg : String)
  | panic (msg : String)
  deriving DecidableEq, Repr

deriving instance DecidableEq for Except

/-- A Go `byte`. -/
abbrev Byte := Fin 256

/-- Go's builtin `len` on a string: the number of bytes of its UTF-8 encoding. -/
def len (s : String) : Nat := s.utf8ByteSize

/-! ## Package `strings` -/

namespace strings

/-- Cut a character sequence at every occurrence of `sep`; `n` occurrences give `n + 1` pieces. -/
def splitChars (sep : Char) : List Char → List (List Char)
  | [] => [[]]
  | c :: cs =>
    if c = sep then [] :: splitChars sep cs
    else
      match splitChars sep cs with
      | [] => [[c]]
      | p :: ps => (c :: p) :: ps

/-- The call `strings.Split(s, sep)` for a separator `sep` of one ASCII character. -/
def Split (s : String) (sep : Char) : List String :=
  (splitChars sep s.data).map String.mk

end strings

/-! ## Package `regexp`, as far as `endp` uses it -/

namespace regexp

/-- A compiled expression of the shape `^[ranges]{lo,hi}`: anchored at the start of the text,
a character class given by inclusive ranges, repeated between `lo` and `hi` times.  There is
no anchor at the end. -/
structure Regexp where
  ranges : List (Char × Char)
  lo : Nat
  hi : Nat

/-- Membership of a rune in the character class. -/
def Regexp.inClass (re : Regexp) (c : Char) : Bool :=
  re.ranges.any fun rg => decide (rg.1 ≤ c) && decide (c ≤ rg.2)

/-- The method `MatchString`: the text contains a match of the expression, that is, for some
repetition count `k` with `lo ≤ k ≤ hi` the first `k` runes of the text are in the class. -/
def Regexp.MatchString (re : Regexp) (s : String) : Bool :=
  (List.range (re.hi + 1)).any fun k =>
    decide (re.lo ≤ k) && decide (k ≤ s.data.length) && (s.data.take k).all re.inClass

end regexp

/-! ## Package `endp` -/

namespace endp

/-- The struct `Addr`. -/
structure Addr where
  ID : Nat := 0
  Service : String := ""
  PlRcvr : String := ""
  MsgRcvr : String := ""
  RcvrDID : String := ""
  EdgeToken : String := ""
  BasePath : String := ""
  VerKey : String := ""
  deriving DecidableEq, Repr

def DIDLengthMax : Nat := 22
def DIDLengthMin : Nat := 21

/-- The package variable `r`, as `init` compiles it from
`"^[1-9A-HJ-NP-Za-km-z]{21,22}"`. -/
def r : regexp.Regexp :=
  { ranges := [('1', '9'), ('A', 'H'), ('J', 'N'), ('P', 'Z'), ('a', 'k'), ('m', 'z')]
    lo := DIDLengthMin
    hi := DIDLengthMax }

/-- One iteration of the loop of `NewServerAddr`: the `switch i` on the index of the part. -/
def assignPart (ea : Addr) (ip : Nat × String) : Addr :=
  match ip.1 with
  | 1 => { ea with Service := ip.2 }
  | 2 => { ea with PlRcvr := ip.2 }
  | 3 => { ea with MsgRcvr := ip.2 }
  | 4 => { ea with RcvrDID := ip.2 }
  | 5 => { ea with EdgeToken := ip.2 }
  | _ => ea

def NewServerAddr (s : String) : Addr :=
  let parts := strings.Split s '/'
  parts.enum.foldl assignPart {}

def endpoints : List String := ["ping", "handshake"]

def IsInEndpoints (endpointName : String) : Bool :=
  endpoints.any fun name => decide (name = endpointName)

def IsDID (DID : String) : Bool :=
  let l := len DID
  let lenOK := decide (DIDLengthMin ≤ l) && decide (l ≤ DIDLengthMax)
  lenOK && r.MatchString DID

def Addr.Valid (e : Addr) : Bool :=
  if !IsInEndpoints e.PlRcvr then
    IsDID e.PlRcvr && IsDID e.MsgRcvr && IsDID e.RcvrDID
  else
    true

/-- The base58 alphabet as the specification lists it: `1-9, A-H, J-N, P-Z, a-k, m-z`. -/
def base58Alphabet : List Char :=
  "123456789ABCDEFGHJKLMNPQRSTUVWXYZabcdefghijkmnopqrstuvwxyz".data

/-- A syntactically valid DID in the specification's words: 21 or 22 characters, all of them
from the base58 alphabet. -/
def ValidDIDSyntax (s : String) : Prop :=
  (s.length = 21 ∨ s.length = 22) ∧ ∀ c ∈ s.data, c ∈ base58Alphabet

instance (s : String) : Decidable (ValidDIDSyntax s) := by
  unfold ValidDIDSyntax; infer_instance

end endp

/-! ## Machine integers -/

/-- The conversion `uint64(x)` of an `int64`: reduction modulo `2^64`. -/
def uint64 (x : Int) : Nat := (x % 18446744073709551616).toNat

/-- The conversion `int64(u)` of a `uint64`: two's complement reinterpretation. -/
def int64 (u : Nat) : Int :=
  if u < 9223372036854775808 then (u : Int) else (u : Int) - 18446744073709551616

/-- The result of an `int64` operation whose exact value is `x`: wrapped into
`[-2^63, 2^63)`. -/
def wrapInt64 (x : Int) : Int :=
  (x + 9223372036854775808) % 18446744073709551616 - 9223372036854775808

/-- The value is representable as an `int64`. -/
def IsInt64 (x : Int) : Prop := -9223372036854775808 ≤ x ∧ x < 9223372036854775808

instance (x : Int) : Decidable (IsInt64 x) := by unfold IsInt64; infer_instance

/-- The conversion `byte(v)`. -/
def byte (v : Nat) : Byte := Fin.ofNat v

/-! ## Package `encoding/binary` -/

namespace binary

/-- The method `BigEndian.Uint64`: panics on fewer than 8 bytes (the bounds check `b[7]`). -/
def BigEndian.Uint64 (b : List Byte) : Except Failure Nat :=
  match b with
  | b0 :: b1 :: b2 :: b3 :: b4 :: b5 :: b6 :: b7 :: _ =>
    .ok (b7.val + b6.val * 2 ^ 8 + b5.val * 2 ^ 16 + b4.val * 2 ^ 24 + b3.val * 2 ^ 32
      + b2.val * 2 ^ 40 + b1.val * 2 ^ 48 + b0.val * 2 ^ 56)
  | _ => .error (.panic "index out of range")

/-- The method `LittleEndian.Uint64`: panics on fewer than 8 bytes. -/
def LittleEndian.Uint64 (b : List Byte) : Except Failure Nat :=
  match b with
  | b0 :: b1 :: b2 :: b3 :: b4 :: b5 :: b6 :: b7 :: _ =>
    .ok (b0.val + b1.val * 2 ^ 8 + b2.val * 2 ^ 16 + b3.val * 2 ^ 24 + b4.val * 2 ^ 32
      + b5.val * 2 ^ 40 + b6.val * 2 ^ 48 + b7.val * 2 ^ 56)
  | _ => .error (.panic "index out of range")

/-- The method `BigEndian.PutUint64`: overwrites the first 8 bytes of `b`; panics when `b`
is shorter. -/
def BigEndian.PutUint64 (b : List Byte) (v : Nat) : Except Failure (List Byte) :=
  if b.length < 8 then .error (.panic "index out of range")
  else
    .ok ([byte (v / 2 ^ 56), byte (v / 2 ^ 48), byte (v / 2 ^ 40), byte (v / 2 ^ 32),
      byte (v / 2 ^ 24), byte (v / 2 ^ 16), byte (v / 2 ^ 8), byte v] ++ b.drop 8)

end binary

/-- The builtin `make([]byte, n)`: `n` zero bytes. -/
def make (n : Nat) : List Byte := List.replicate n 0

/-- The builtin `copy(dst, src)`: the new contents of `dst` and the number of bytes copied,
the smaller of the two lengths. -/
def copy (dst src : List Byte) : List Byte × Nat :=
  let l := min dst.length src.length
  (src.take l ++ dst.drop l, l)

/-! ## Package `core`: the part of the `DID` interface used here -/

namespace core

/-- The interface `core.DID`, reduced to the accessors the embedded code calls. -/
structure DID where
  KID : String
  VerKey : String
  deriving DecidableEq, Repr

end core

/-! ## Package `didexchange/v0` -/

namespace v0

def missingInvalidErrorString : String := "missing or invalid signature data"

/-- The struct `ConnectionSignature`. -/
structure ConnectionSignature where
  Type_ : String := ""
  SignedData : String := ""
  SignVerKey : String := ""
  Signature : String := ""
  deriving DecidableEq, Repr

def connectionSigExpTime : Int := 10 * 60 * 60

/-- The closure `tsIsValid` of `verifyTimestamp`; the subtraction is an `int64` subtraction. -/
def tsIsValid (now ts : Int) : Bool :=
  let diff := wrapInt64 (now - ts)
  decide (diff ≥ 0) && decide (diff ≤ connectionSigExpTime)

def verifyTimestamp (now : Int) (data : List Byte) : Except Failure (Int × Bool) := do
  -- preferred is big endian
  let timestamp := int64 (← binary.BigEndian.Uint64 data)
  if tsIsValid now timestamp then
    return (timestamp, true)
  -- accept also meaningful values found in little endian encoding
  let timestamp := int64 (← binary.LittleEndian.Uint64 data)
  return (timestamp, tsIsValid now timestamp)

/-- The function `signAndStamp`.  `Sign` stands for `signature.Signer{DID: ourDID}.Sign`,
`now` for `getEpochTime()`. -/
def signAndStamp (Sign : core.DID → List Byte → Except Failure (List Byte)) (now : Int)
    (ourDID : core.DID) (src : List Byte) :
    Except Failure (List Byte × List Byte × String) := do
  let data := make (8 + src.length)
  let data ← binary.BigEndian.PutUint64 data (uint64 now)
  let (tail, _l) := copy (data.drop 8) src
  let data := data.take 8 ++ tail
  let dst ← Sign ourDID data
  return (data, dst, ourDID.VerKey)

/-- The method `responseImpl.verifySignature`, on the `ConnectionSignature` of the response.
`DecodeB64` stands for `utils.DecodeB64`, `VerifyWithKey` for
`signature.Verifier{DID: DID}.VerifyWithKey`; `.ok ()` is the `nil` error.  An invalid
timestamp is only logged. -/
def verifySignature (DecodeB64 : String → Except Failure (List Byte))
    (VerifyWithKey : core.DID → String → List Byte → List Byte → Except Failure Unit)
    (now : Int) (cs : ConnectionSignature) (DID : core.DID) : Except Failure Unit := do
  let data ← DecodeB64 cs.SignedData
  if data.length = 0 then
    throw (.error missingInvalidErrorString)
  let signatureData ← DecodeB64 cs.Signature
  VerifyWithKey DID cs.SignVerKey data signatureData
  let (_timestamp, _ok) ← verifyTimestamp now data
  return ()

/-- The freshness window of the specification, `[now - 36000, now]`. -/
def InWindow (now ts : Int) : Prop := now - 36000 ≤ ts ∧ ts ≤ now

instance (now ts : Int) : Decidable (InWindow now ts) := by unfold InWindow; infer_instance

/-- The buffer both stamping functions are shown to build: eight big-endian bytes, then the
source. -/
def stamped (now : Int) (src : List Byte) : List Byte :=
  [byte (uint64 now / 2 ^ 56), byte (uint64 now / 2 ^ 48), byte (uint64 now / 2 ^ 40),
    byte (uint64 now / 2 ^ 32), byte (uint64 now / 2 ^ 24), byte (uint64 now / 2 ^ 16),
    byte (uint64 now / 2 ^ 8), byte (uint64 now)] ++ src

end v0

/-! ## Package `sec` -/

namespace sec

/-- The capabilities `Pipe.Sign` takes from the packager of the pipe's `In` identity:
`KMS().Get` and `Crypto().Sign`; a key handle is a number. -/
structure Packager where
  KMSGet : String → Except Failure Nat
  CryptoSign : List Byte → Nat → Except Failure (List Byte)

/-- The struct `Pipe`; `none` is a nil `core.DID`. -/
structure Pipe where
  In : Option core.DID
  Out : Option core.DID

/-- The effect of `defer err2.Annotate(prefix, &err)` on a returned error. -/
def annotate {α : Type} (pre : String) : Except Failure α → Except Failure α
  | .error (.error msg) => .error (.error (pre ++ ": " ++ msg))
  | x => x

/-- The method `Pipe.Sign`.  `packager` stands for `p.In.Packager()`; with a nil `In` the
call `p.packager().KMS()` is a nil dereference. -/
def Pipe.Sign (packager : core.DID → Packager) (p : Pipe) (src : List Byte) :
    Except Failure (List Byte × String) :=
  annotate "pipe sign" <|
    match p.In with
    | none => .error (.panic "nil pointer dereference")
    | some did => do
      let kh ← (packager did).KMSGet did.KID
      let dst ← (packager did).CryptoSign src kh
      return (dst, did.VerKey)

/-- The method `Pipe.SignAndStamp`; `now` stands for `getEpochTime()`. -/
def Pipe.SignAndStamp (packager : core.DID → Packager) (now : Int) (p : Pipe)
    (src : List Byte) : Except Failure (List Byte × List Byte × String) := do
  let data := make (8 + src.length)
  let data ← binary.BigEndian.PutUint64 data (uint64 now)
  let (tail, _l) := copy (data.drop 8) src
  let data := data.take 8 ++ tail
  let (sign, verKey) ← p.Sign packager data
  return (data, sign, verKey)

end sec

/-! ## Package `strings`, continued -/

namespace strings

/-- The call `strings.HasPrefix(s, prefix)`. -/
def HasPrefix (s pre : String) : Bool := pre.data.isPrefixOf s.data

/-- The call `strings.HasSuffix(s, suffix)`. -/
def HasSuffix (s suffix : String) : Bool := suffix.data.isSuffixOf s.data

/-- The call `strings.TrimSuffix(s, suffix)`: `s[:len(s)-len(suffix)]` when `s` ends with
`suffix`, else `s`. -/
def TrimSuffix (s suffix : String) : String :=
  if HasSuffix s suffix then String.mk (s.data.take (s.data.length - suffix.data.length))
  else s

end strings

/-! ## Package `service` -/

namespace service

/-- The struct `service.Addr`: an endpoint URL and its key. -/
structure Addr where
  Endp : String := ""
  Key : String := ""
  deriving DecidableEq, Repr

end service

/-! ## Package `endp`, continued -/

namespace endp

/-- The method `Addr.Address`; the first line is `fmt.Sprintf("%s/%s/%s", ...)`. -/
def Addr.Address (e : Addr) : String :=
  let basePath := e.BasePath ++ "/" ++ e.Service ++ "/" ++ e.PlRcvr
  let basePath := if e.MsgRcvr ≠ "" then basePath ++ ("/" ++ e.MsgRcvr) else basePath
  let basePath := if e.RcvrDID ≠ "" then basePath ++ ("/" ++ e.RcvrDID) else basePath
  let basePath := if e.EdgeToken ≠ "" then basePath ++ ("/" ++ e.EdgeToken) else basePath
  strings.TrimSuffix basePath "/"

/-- The method `Addr.AE`. -/
def Addr.AE (e : Addr) : service.Addr := { Endp := e.Address, Key := e.VerKey }

/-- In the specification's words: `"/" + field` for a field that is non-empty, nothing for an
empty one. -/
def optionalSegment (field : String) : String := if field = "" then "" else "/" ++ field

/-- In the specification's words: a single trailing `/` removed if present. -/
def dropTrailingSlash (s : String) : String :=
  if s.data.getLast? = some '/' then String.mk s.data.dropLast else s

/-- The address as the specification describes it. -/
def addressBySpec (e : Addr) : String :=
  dropTrailingSlash (e.BasePath ++ "/" ++ e.Service ++ "/" ++ e.PlRcvr
    ++ optionalSegment e.MsgRcvr ++ optionalSegment e.RcvrDID ++ optionalSegment e.EdgeToken)

end endp

/-! ## Package `net/http`, as far as `comm` uses it -/

namespace http

/-- The struct `http.Response`, reduced to what `checkHTTPStatus` reads: the status code, the
status line and the value of `Header.Get("Content-type")`. -/
structure Response where
  StatusCode : Int
  Status : String
  ContentType : String := ""
  deriving DecidableEq, Repr

def StatusOK : Int := 200

end http

/-- The bytes of a Go string: its UTF-8 encoding. -/
def bytesOf (s : String) : List Byte :=
  (s.data.flatMap String.utf8EncodeChar).map fun b => b.val

/-! ## Package `comm` -/

namespace comm

def errorMessageMaxLength : Nat := 80

def min (a b : Nat) : Nat := if a < b then a else b

/-- The function `checkHTTPStatus`.  The result is the pair of the returned data (`none` is
nil) and the returned error (`none` is nil); an error is given by the bytes of its message,
since `%s` copies the bytes of the body as they are. -/
def checkHTTPStatus (response : http.Response) (data : List Byte) :
    Option (List Byte) × Option (List Byte) :=
  if response.StatusCode ≠ http.StatusOK then
    let contentType := response.ContentType
    if strings.HasPrefix contentType "text/plain" then
      let l := data.length
      (none, some (bytesOf response.Status ++ bytesOf ": "
        ++ data.take (min errorMessageMaxLength l)))
    else
      (none, some (bytesOf response.Status))
  else
    (some data, none)

end comm

/-! ## Packages around the connection protocol

The connection protocol calls into packages whose code is outside the embedded sources
(`prot`, `psm`, `pairwise`, `ssi`, `aries`, `signature`).  Their data is reduced to the fields
the protocol reads, and their operations are collected in `connection.Env`. -/

namespace psm

/-- The struct `psm.StateKey`. -/
structure StateKey where
  DID : String := ""
  Nonce : String := ""
  deriving DecidableEq, Repr

/-- The `psm.SubState` values the embedded sources name. -/
inductive SubState where
  | Waiting
  | Sending
  | Received
  | ReadyACK
  deriving DecidableEq, Repr

end psm

namespace pb

/-- The enumeration `pb.Protocol_Role`. -/
inductive Role where
  | RESUMER
  | INITIATOR
  | ADDRESSEE
  deriving DecidableEq, Repr

end pb

namespace ssi

/-- A DID object behind the `core.DID` interface, as the protocol reads it: `Did()` and
`VerKey()`. -/
structure DID where
  Did : String := ""
  VerKey : String := ""
  deriving DecidableEq, Repr

end ssi

namespace did

/-- One entry of `DIDDoc.Service`. -/
structure Service where
  ServiceEndpoint : String := ""
  RecipientKeys : List String := []
  deriving DecidableEq, Repr

end did

namespace didcomm

/-- A message (`didcomm.MessageHdr` with its field object) as far as the protocol reads and
writes it: `Thread().ID`, the `PwMsg` accessors `Did()`, `VerKey()`, `Endpoint()`, and of the
field object the label, `Connection.DIDDoc.Service` and `Endpoint()`. -/
structure Msg where
  ThreadID : String := ""
  Did : String := ""
  VerKey : String := ""
  Endpoint : service.Addr := {}
  Label : String := ""
  Services : List did.Service := []
  ObjEndpoint : service.Addr := {}
  deriving DecidableEq, Repr

/-- A payload: its ID, its type and its message. -/
structure Payload where
  ID : String := ""
  Type_ : String := ""
  Msg : Msg := {}
  deriving DecidableEq, Repr

/-- The accessor `Payload.ThreadID()`, taken to read the thread decorator of the message. -/
def Payload.ThreadID (pl : Payload) : String := pl.Msg.ThreadID

end didcomm

namespace invitation

/-- The struct `invitation.Invitation`, the fields the protocol reads. -/
structure Invitation where
  ID : String := ""
  Label : String := ""
  ServiceEndpoint : String := ""
  RecipientKeys : List String := []
  RoutingKeys : List String := []
  deriving DecidableEq, Repr

end invitation

namespace comm

/-- The struct `comm.TaskHeader`; `Role` holds what `Role()` returns. -/
structure TaskHeader where
  TaskID : String := ""
  TypeID : String := ""
  Role : pb.Role := .RESUMER
  Receiver : service.Addr := {}
  Sender : service.Addr := {}
  deriving DecidableEq, Repr

/-- The interface `comm.Receiver`, the values the protocol reads from it: `MyDID().Did()`,
`WDID()` and `CAEndp()`. -/
structure Receiver where
  MyDID : String := ""
  WDID : String := ""
  CAEndp : endp.Addr := {}
  deriving DecidableEq, Repr

/-- The struct `comm.Packet`. -/
structure Packet where
  Payload : didcomm.Payload := {}
  Address : endp.Addr := {}
  Receiver : Receiver := {}
  deriving DecidableEq, Repr

end comm

namespace url

/-- The struct `url.URL`, the fields `NewClientAddr` reads. -/
structure URL where
  Scheme : String := ""
  Host : String := ""
  Path : String := ""
  deriving DecidableEq, Repr

end url

namespace endp

/-- The function `NewClientAddr`.  `Parse` stands for `url.Parse`, whose error is dropped;
with a nil URL the read of `u.Scheme` is a nil dereference. -/
def NewClientAddr (Parse : String → Option url.URL) (s : String) : Except Failure Addr :=
  match Parse s with
  | none => .error (.panic "nil pointer dereference")
  | some u =>
    let ea : Addr := { BasePath := u.Scheme ++ "://" ++ u.Host }
    let parts := strings.Split u.Path '/'
    .ok (parts.enum.foldl assignPart ea)

def NewClientAddrWithKey (Parse : String → Option url.URL) (fullURL verkey : String) :
    Except Failure Addr := do
  let addr ← NewClientAddr Parse fullURL
  return { addr with VerKey := verkey }

def NewAddrFromPublic (Parse : String → Option url.URL) (ae : service.Addr) :
    Except Failure Addr :=
  NewClientAddrWithKey Parse ae.Endp ae.Key

end endp

/-! ## Package `connection` -/

namespace connection

/-- The struct `didRep`. -/
structure didRep where
  DID : String := ""
  VerKey : String := ""
  Endp : String := ""
  My : Bool := false
  deriving DecidableEq, Repr

/-- The struct `pairwiseRep`. -/
structure pairwiseRep where
  StateKey : psm.StateKey := {}
  Name : String := ""
  TheirLabel : String := ""
  Caller : didRep := {}
  Callee : didRep := {}
  deriving DecidableEq, Repr

/-- The struct `taskDIDExchange`; `TaskBase` is the embedded `comm.TaskBase`, that is, its
`TaskHeader`. -/
structure taskDIDExchange where
  TaskBase : comm.TaskHeader := {}
  Invitation : invitation.Invitation := {}
  InvitationID : String := ""
  Label : String := ""
  deriving DecidableEq, Repr

/-- A value of the interface `comm.Task`: a plain `comm.TaskBase` or a `taskDIDExchange`. -/
inductive Task where
  | base (t : comm.TaskHeader)
  | didExchange (t : taskDIDExchange)
  deriving DecidableEq, Repr

/-- The calls into other packages that change something outside the function: the store, the
wallet, the network. -/
inductive Call where
  | UpdatePSM (meDID msgMeDID : String) (task : Task) (pl : didcomm.Payload)
      (state : psm.SubState)
  | AddRep (rep : pairwiseRep)
  | SendPL (pipeIn pipeOut : ssi.DID) (task : Task) (opl : didcomm.Payload)
  | saveConnectionEndpoint (connectionID theirEndpoint : String)
  | Sign (res : didcomm.Msg) (pipeIn pipeOut : ssi.DID)
  | AddDIDCache (d : ssi.DID)
  | AddPipeToPWMap (pipeIn pipeOut : ssi.DID) (name : String)
  | AddToPWMap (me you : ssi.DID) (name : String)
  | Store (d : ssi.DID)
  | SavePairwiseForDID (me you : ssi.DID) (name : String) (route : List String)
  deriving DecidableEq, Repr

/-- One call as it happened: the call and whether it returned without error. -/
structure Entry where
  call : Call
  ok : Bool
  deriving DecidableEq, Repr

/-- What `pairwise.NewCalleePairwise(...).ConnReqToRespWithSet` hands back on success: the
response message it built, as passed to the callback, and the two ends of the pairwise. -/
structure CalleePairwise where
  m : didcomm.Msg := {}
  Callee : ssi.DID := {}
  Caller : ssi.DID := {}
  deriving DecidableEq, Repr

/-- The operations of the packages outside the embedded sources.  An answer may depend on the
calls made so far. -/
structure Env where
  /-- The result of a call that returns only an error. -/
  exec : List Entry → Call → Except Failure Unit
  /-- The call `signature.Verify(response)`. -/
  Verify : didcomm.Msg → Except Failure Bool
  /-- The function `getPairwiseRep`. -/
  getPairwiseRep : List Entry → psm.StateKey → Except Failure pairwiseRep
  /-- The call `url.Parse`. -/
  Parse : String → Option url.URL
  /-- The call `ssiWA.NewDID(method.TypeSov, "")`. -/
  NewDID : List Entry → ssi.DID
  /-- The call `wa.NewOutDID(keys...)`. -/
  NewOutDID : List Entry → List String → Except Failure ssi.DID
  /-- The call `ssi.NewOutDid(verkey, route)`. -/
  NewOutDid : String → List String → ssi.DID
  /-- The call `receiver.LoadDID(did)`. -/
  LoadDID : String → ssi.DID
  /-- The call `didexchange.RouteForConnection` on the connection of a message. -/
  RouteForConnection : didcomm.Msg → List String
  /-- The calls `pairwise.NewCalleePairwise`, `CheckPreallocation` and
  `ConnReqToRespWithSet` on the inbound message and address. -/
  ConnReqToResp : List Entry → didcomm.Msg → endp.Addr → Except Failure CalleePairwise
  /-- The call `aries.PayloadCreator.New(didcomm.PayloadInit{ID: id, Type: typ})`. -/
  PayloadCreatorNew : String → String → didcomm.Payload
  /-- The call `aries.MsgCreator.Create(didcomm.MsgInit{})`. -/
  emptyMsg : didcomm.Msg
  /-- The call `utils.UUID()`. -/
  UUID : List Entry → String
  /-- The method `TaskBase.SwitchDirection`. -/
  SwitchDirection : comm.TaskHeader → comm.TaskHeader
  /-- The constant `pltype.AriesConnectionRequest`. -/
  AriesConnectionRequest : String
  /-- The constant `pltype.AriesConnectionResponse`. -/
  AriesConnectionResponse : String

/-- What a run can change: the calls made so far, and the inbound payload `ipl`, which the
handlers reach through a pointer. -/
structure State where
  trace : List Entry := []
  ipl : didcomm.Payload := {}
  deriving DecidableEq, Repr

/-- A computation that may fail and keeps the state it reached when it does. -/
def Exec (α : Type) : Type := State → Except Failure α × State

def Exec.pure {α : Type} (a : α) : Exec α := fun s => (.ok a, s)

def Exec.bind {α β : Type} (m : Exec α) (f : α → Exec β) : Exec β := fun s =>
  match (m s).1 with
  | .ok a => f a (m s).2
  | .error e => (.error e, (m s).2)

instance : Monad Exec where
  pure := Exec.pure
  bind := Exec.bind

/-- An effectful call through `try.To`: it is logged with its outcome. -/
def call (env : Env) (c : Call) : Exec Unit := fun s =>
  let res := env.exec s.trace c
  (res, { s with trace := s.trace ++ [⟨c, res.toBool⟩] })

/-- An effectful call that returns no error: it is logged. -/
def note (c : Call) : Exec Unit := fun s =>
  (.ok (), { s with trace := s.trace ++ [⟨c, true⟩] })

/-- A step without effect outside the function, through `try.To1` where it can fail. -/
def lift {α : Type} (x : Except Failure α) : Exec α := fun s => (x, s)

/-- The calls made so far. -/
def getTrace : Exec (List Entry) := fun s => (.ok s.trace, s)

/-- The inbound payload `ipl` as it is now. -/
def getIpl : Exec didcomm.Payload := fun s => (.ok s.ipl, s)

/-- The assignment `ipl.MsgHdr().Thread().ID = id`. -/
def setIplThreadID (id : String) : Exec Unit := fun s =>
  (.ok (), { s with ipl := { s.ipl with Msg := { s.ipl.Msg with ThreadID := id } } })

/-- The effect of `defer err2.Annotate(prefix, &err)`. -/
def annotate {α : Type} (pre : String) (m : Exec α) : Exec α := fun s =>
  (sec.annotate pre (m s).1, (m s).2)

/-- The index expression `xs[0]`. -/
def index0 {α : Type} (xs : List α) : Except Failure α :=
  match xs with
  | [] => .error (.panic "index out of range")
  | x :: _ => .ok x

/-- The call `aries.PayloadCreator.NewMsg(id, typ, msg)`. -/
def NewMsg (id typ : String) (msg : didcomm.Msg) : didcomm.Payload :=
  { ID := id, Type_ := typ, Msg := msg }

/-- The builtin `make([]string, n, c)`: `n` empty strings; panics when the length `n` exceeds
the capacity `c`. -/
def makeStrings (n c : Nat) : Except Failure (List String) :=
  if c < n then .error (.panic "makeslice: cap out of range")
  else .ok (List.replicate n "")

/-- The function `buildRouting`.  Its `make([]string, 2, len(rKeys)+1)` panics when `rKeys`
is empty, the length 2 then exceeding the capacity 1. -/
def buildRouting (rKey : String) (rKeys : List String) : Except Failure (List String) := do
  let retval ← makeStrings 2 (rKeys.length + 1)
  let retval := retval.set 0 "did:sov:"
  let retval := retval.set 1 rKey
  return retval ++ rKeys

/-- The function `saveConnectionEndpoint`: reads and writes the connection storage. -/
def saveConnectionEndpoint (env : Env) (connectionID theirEndpoint : String) : Exec Unit :=
  call env (.saveConnectionEndpoint connectionID theirEndpoint)

/-- The function `startConnectionProtocol`, with `task` already asserted to be a
`*taskDIDExchange` and the type assertions on the values of other packages taken to hold.
The result is what `err2.CatchTrace` sees: `.ok` when the body ran to its end, the caught
error or panic otherwise, among them the panic of `buildRouting` on an invitation without
routing keys. -/
def startConnectionProtocol (env : Env) (ca : comm.Receiver) (deTask : taskDIDExchange) :
    Exec Unit := do
  let meAddr := ca.CAEndp
  let me := ca.WDID
  if deTask.TaskBase.Role = pb.Role.ADDRESSEE then
    let wpl := env.PayloadCreatorNew deTask.TaskBase.TaskID env.AriesConnectionRequest
    call env (.UpdatePSM me "" (.didExchange deTask) wpl .Waiting)
  else
    let key ← lift (index0 deTask.Invitation.RecipientKeys)
    let deTask : taskDIDExchange :=
      { deTask with TaskBase := { deTask.TaskBase with
          Receiver := { Endp := deTask.Invitation.ServiceEndpoint, Key := key } } }
    let task := Task.didExchange deTask
    let caller := env.NewDID (← getTrace)
    let pubEndp : endp.Addr := { meAddr with RcvrDID := caller.Did }
    -- build a connection request message to send to another agent
    let msg : didcomm.Msg :=
      { Label := deTask.Label, Did := caller.Did, VerKey := caller.VerKey,
        Endpoint := pubEndp.AE, ThreadID := deTask.InvitationID }
    note (.AddDIDCache caller)
    -- Save needed data to PSM related Pairwise Representative
    let pwr : pairwiseRep :=
      { StateKey := { DID := me, Nonce := deTask.TaskBase.TaskID }
        Name := deTask.TaskBase.TaskID
        TheirLabel := deTask.Invitation.Label
        Caller := { DID := caller.Did, VerKey := caller.VerKey, My := true }
        Callee := {} }
    call env (.AddRep pwr)
    -- Create payload to send
    let opl := NewMsg deTask.TaskBase.TaskID env.AriesConnectionRequest msg
    -- Create secure pipe to send payload to other end of the new PW
    let receiverKey := deTask.TaskBase.Receiver.Key
    let receiverKeys ← lift (buildRouting receiverKey deTask.Invitation.RoutingKeys)
    let callee ← lift (env.NewOutDID (← getTrace) receiverKeys)
    note (.AddPipeToPWMap caller callee pwr.Name)
    -- Update PSM state, and send the payload to other end
    call env (.UpdatePSM me caller.Did task opl .Sending)
    call env (.SendPL caller callee task opl)
    -- Sending went OK, update PSM once again
    let wpl := env.PayloadCreatorNew deTask.TaskBase.TaskID env.AriesConnectionResponse
    call env (.UpdatePSM me caller.Did task wpl .Waiting)

/-- The function `handleConnectionRequest`, run on the state that holds `packet.Payload` as
`ipl`. -/
def handleConnectionRequest (env : Env) (packet : comm.Packet) : Exec Unit :=
  annotate "connection req" do
    -- The agent DID, the PW DID is msgMeDID below
    let meDID := packet.Receiver.MyDID
    let msgMeDID := ""
    let cnxAddr := packet.Address
    let safeThreadID := (← getIpl).ThreadID
    let connectionID := if cnxAddr.EdgeToken ≠ "" then cnxAddr.EdgeToken else safeThreadID
    let req := (← getIpl).Msg
    let svc ← lift (index0 req.Services)
    let key ← lift (index0 svc.RecipientKeys)
    let senderEP : service.Addr := { Endp := svc.ServiceEndpoint, Key := key }
    let receiverEP := cnxAddr.AE
    let task : comm.TaskHeader :=
      { TaskID := (← getIpl).ThreadID, TypeID := (← getIpl).Type_,
        Receiver := receiverEP, Sender := senderEP }
    call env (.UpdatePSM meDID msgMeDID (.base task) (← getIpl) .Received)
    let task := env.SwitchDirection task
    -- we must switch the Nonce for pairwise construction
    setIplThreadID connectionID
    let calleePw ← lift (env.ConnReqToResp (← getTrace) (← getIpl).Msg cnxAddr)
    -- the callback of ConnReqToRespWithSet
    let m := calleePw.m
    let msgMeDID := m.Did
    let pubEndp : endp.Addr := { cnxAddr with RcvrDID := m.Did, VerKey := m.VerKey }
    let msg : didcomm.Msg := { m with Endpoint := { Endp := pubEndp.Address, Key := pubEndp.VerKey } }
    -- we must switch the Nonce for pairwise construction back
    setIplThreadID safeThreadID
    let msg : didcomm.Msg := { msg with ThreadID := safeThreadID }
    let IncomingPWMsg := (← getIpl).Msg
    let caller := calleePw.Caller
    let callerEndp ← lift (endp.NewAddrFromPublic env.Parse IncomingPWMsg.Endpoint)
    let callerAddress := callerEndp.Address
    let pwr : pairwiseRep :=
      { StateKey := { DID := meDID, Nonce := safeThreadID }
        Name := connectionID
        TheirLabel := req.Label
        Callee := { DID := calleePw.Callee.Did, VerKey := calleePw.Callee.VerKey, My := true }
        Caller := { DID := caller.Did, VerKey := caller.VerKey, Endp := callerAddress } }
    call env (.AddRep pwr)
    -- SAVE ENDPOINT to wallet
    saveConnectionEndpoint env connectionID callerAddress
    -- update caller with route information
    let caller := env.NewOutDid caller.VerKey (env.RouteForConnection req)
    -- we must sign the Response before send it
    call env (.Sign msg calleePw.Callee caller)
    -- caller.SetAEndp(...) sets the endpoint of the DID object, which `ssi.DID` does not carry
    note (.AddToPWMap calleePw.Callee caller connectionID)
    -- build the response payload, update PSM, and send the PL with sec.Pipe
    let opl := NewMsg (env.UUID (← getTrace)) env.AriesConnectionResponse msg
    call env (.UpdatePSM meDID msgMeDID (.base task) opl .Sending)
    call env (.SendPL calleePw.Callee caller (.base task) opl)
    -- update the PSM, we are ready at this end for this protocol
    let wpl := NewMsg task.TaskID env.AriesConnectionResponse env.emptyMsg
    call env (.UpdatePSM meDID msgMeDID (.base task) wpl .ReadyACK)

/-- The function `handleConnectionResponse`, run on the state that holds `packet.Payload` as
`ipl`. -/
def handleConnectionResponse (env : Env) (packet : comm.Packet) : Exec Unit :=
  annotate "connection response" do
    let meDID := packet.Receiver.MyDID
    let ipl ← getIpl
    let nonce := ipl.ThreadID
    let response := ipl.Msg
    let verified ← lift (env.Verify response)
    if !verified then
      lift (.error (.error "cannot verify connection response signature"))
    else
      let respEndp := response.ObjEndpoint
      let task : comm.TaskHeader :=
        { TaskID := ipl.ThreadID, TypeID := ipl.Type_, Receiver := respEndp, Sender := respEndp }
      call env (.UpdatePSM meDID "" (.base task) ipl .Received)
      let pwr ← lift (env.getPairwiseRep (← getTrace) { DID := meDID, Nonce := nonce })
      let msgMeDID := pwr.Caller.DID
      let caller := env.LoadDID pwr.Caller.DID
      let im := ipl.Msg
      -- Set pairwise info about other end to wallet
      let callee : ssi.DID := { Did := im.Did, VerKey := im.VerKey }
      note (.Store callee)
      let pwName := pwr.Name
      let route := env.RouteForConnection response
      note (.SavePairwiseForDID caller callee pwName route)
      -- SAVE ENDPOINT to wallet
      let calleeEndp ← lift (endp.NewAddrFromPublic env.Parse im.Endpoint)
      saveConnectionEndpoint env pwName calleeEndp.Address
      -- Save Rep and PSM
      let newPwr : pairwiseRep :=
        { StateKey := pwr.StateKey
          Name := pwr.Name
          TheirLabel := pwr.TheirLabel
          Callee := { DID := callee.Did, VerKey := calleeEndp.VerKey,
                      Endp := calleeEndp.Address, My := false }
          Caller := pwr.Caller }
      call env (.AddRep newPwr)
      -- callee.SetAEndp(...) sets the endpoint of the DID object, which `ssi.DID` does not carry
      note (.AddToPWMap caller callee pwName)
      -- Update that PSM is successfully Ready
      let opl := NewMsg (env.UUID (← getTrace)) env.AriesConnectionResponse env.emptyMsg
      call env (.UpdatePSM meDID msgMeDID (.base task) opl .ReadyACK)

/-- The state at the entry of a handler: nothing called yet, `ipl` is the packet's payload. -/
def entryState (packet : comm.Packet) : State := { trace := [], ipl := packet.Payload }

/-- The Representatives written, in order: the arguments of the `psm.AddRep` calls. -/
def repsWritten (tr : List Entry) : List pairwiseRep :=
  tr.filterMap fun en =>
    match en.call with
    | .AddRep rep => some rep
    | _ => none

/-- The PSM transitions requested, in order, each with its task: the arguments of the
`prot.UpdatePSM` calls. -/
def transitions (tr : List Entry) : List (Task × psm.SubState) :=
  tr.filterMap fun en =>
    match en.call with
    | .UpdatePSM _ _ task _ state => some (task, state)
    | _ => none

/-- The order of store and network along a trace, entry by entry, `pre` being what was called
before: a `comm.SendPL` comes after a successful `prot.UpdatePSM` that recorded `Sending` for
the same task and payload, and when it fails nothing is called after it; a `prot.UpdatePSM`
to `Waiting` or `ReadyACK` comes after a successful `comm.SendPL`. -/
def SendGuarded (pre : List Entry) : List Entry → Prop
  | [] => True
  | en :: post =>
    (match en.call with
      | .SendPL _ _ task opl =>
        (∃ me my, ⟨.UpdatePSM me my task opl .Sending, true⟩ ∈ pre) ∧
          (en.ok = false → post = [])
      | .UpdatePSM _ _ _ _ state =>
        (state = .Waiting ∨ state = .ReadyACK) →
          ∃ pipeIn pipeOut task opl, ⟨.SendPL pipeIn pipeOut task opl, true⟩ ∈ pre
      | _ => True) ∧
    SendGuarded (pre ++ [en]) post

/-- The claim on the order of store and network, over a whole trace: every `comm.SendPL` is
preceded by a successful `prot.UpdatePSM` recording `Sending` for the same task and the same
payload, and nothing is called after a `comm.SendPL` that failed; every `prot.UpdatePSM` to
`Waiting` or `ReadyACK` is preceded by a successful `comm.SendPL`. -/
def SendDiscipline (tr : List Entry) : Prop :=
  (∀ pre post pipeIn pipeOut task opl ok,
      tr = pre ++ ⟨.SendPL pipeIn pipeOut task opl, ok⟩ :: post →
      (∃ me my, ⟨.UpdatePSM me my task opl .Sending, true⟩ ∈ pre) ∧
        (ok = false → post = [])) ∧
  (∀ pre post me my task pl state ok,
      tr = pre ++ ⟨.UpdatePSM me my task pl state, ok⟩ :: post →
      (state = .Waiting ∨ state = .ReadyACK) →
      ∃ pipeIn pipeOut task1 opl, ⟨.SendPL pipeIn pipeOut task1 opl, true⟩ ∈ pre)

/-- The payloads handed to `comm.SendPL`, in order. -/
def payloadsSent (tr : List Entry) : List didcomm.Payload :=
  tr.filterMap fun en =>
    match en.call with
    | .SendPL _ _ _ opl => some opl
    | _ => none

/-- An environment in which every call succeeds, for instantiating the theorems. -/
def exampleEnv : Env :=
  { exec := fun _ _ => .ok ()
    Verify := fun _ => .ok true
    getPairwiseRep := fun _ k => .ok { StateKey := k, Name := "edge", Caller := { DID := "callerDID", My := true } }
    Parse := fun s => some { Scheme := "http", Host := "peer", Path := s }
    NewDID := fun _ => { Did := "callerDID", VerKey := "callerKey" }
    NewOutDID := fun _ _ => .ok { Did := "calleeDID", VerKey := "calleeKey" }
    NewOutDid := fun vk _ => { Did := "", VerKey := vk }
    LoadDID := fun d => { Did := d, VerKey := "" }
    RouteForConnection := fun _ => []
    ConnReqToResp := fun _ m _ =>
      .ok { m := { ThreadID := m.ThreadID, Did := "pwDID", VerKey := "pwKey" }
            Callee := { Did := "pwDID", VerKey := "pwKey" }
            Caller := { Did := m.Did, VerKey := m.VerKey } }
    PayloadCreatorNew := fun id typ => { ID := id, Type_ := typ }
    emptyMsg := {}
    UUID := fun _ => "uuid"
    SwitchDirection := fun t => { t with Receiver := t.Sender, Sender := t.Receiver }
    AriesConnectionRequest := "connections/1.0/request"
    AriesConnectionResponse := "connections/1.0/response" }

/-- The environment `exampleEnv` with a network that is down: `comm.SendPL` fails. -/
def exampleEnvNoNetwork : Env :=
  { exampleEnv with
    exec := fun _ c =>
      match c with
      | .SendPL _ _ _ _ => .error (.error "send payload: call http: connection refused")
      | _ => .ok () }

/-- The environment `exampleEnv` with a verifier that rejects every signature. -/
def exampleEnvRejecting : Env :=
  { exampleEnv with Verify := fun _ => .ok false }

/-- An inbound connection response. -/
def exampleResponse : comm.Packet :=
  { Payload :=
      { ID := "p2", Type_ := "connections/1.0/response"
        Msg := { ThreadID := "inv1", Did := "pwDID", VerKey := "pwKey"
                 Endpoint := { Endp := "/a2a/pwDID", Key := "pwKey" } } }
    Address := { Service := "a2a", PlRcvr := "agentDID" }
    Receiver := { MyDID := "me" } }

/-- An initiator's task made from an invitation that names a routing key. -/
def exampleTask : taskDIDExchange :=
  { TaskBase := { TaskID := "inv1", TypeID := "connection", Role := .INITIATOR }
    Invitation := { ID := "inv1", Label := "peer", ServiceEndpoint := "https://peer/x/ping",
                    RecipientKeys := ["K1"], RoutingKeys := ["R1"] }
    InvitationID := "inv1"
    Label := "me" }

/-- The task `exampleTask` made from an invitation without routing keys. -/
def exampleTaskNoRouting : taskDIDExchange :=
  { exampleTask with
    Invitation := { ID := "inv1", Label := "peer", ServiceEndpoint := "https://peer/x/ping",
                    RecipientKeys := ["K1"], RoutingKeys := [] } }

/-- An inbound connection request that arrives at an address with an edge token. -/
def exampleRequest : comm.Packet :=
  { Payload :=
      { ID := "p1", Type_ := "connections/1.0/request"
        Msg := { ThreadID := "thread1", Did := "callerDID", VerKey := "callerKey", Label := "peer"
                 Endpoint := { Endp := "/a2a/callerDID", Key := "callerKey" }
                 Services := [{ ServiceEndpoint := "https://peer/a2a", RecipientKeys := ["K1"] }] } }
    Address := { Service := "a2a", PlRcvr := "agentDID", EdgeToken := "edge" }
    Receiver := { MyDID := "agentDID" } }

end connection

/-! ## Package `psm`: the state store -/

namespace psm

/-- Modelled from the spec: one transition of a PSM record, `timestamp`, `direction`,
`messageType`, `payloadID` (§3); the code of the record is outside the embedded sources. -/
structure Transition where
  timestamp : Int := 0
  direction : SubState := .Received
  messageType : String := ""
  payloadID : String := ""
  deriving DecidableEq, Repr

/-- Modelled from the spec: a PSM record, owned by its `StateKey`, an ordered sequence of
transitions (§3). -/
structure PSM where
  Key : StateKey := {}
  States : List Transition := []
  deriving DecidableEq, Repr

/-- Modelled from the spec: the State Store (§4.2), an open key-value store with named
buckets; the records are kept newest first, so that a later `Put` on a key hides the earlier
one. -/
structure Store where
  records : List (Byte × List Byte × List Byte) := []
  deriving DecidableEq, Repr

/-- Modelled from the spec: `Put(bucket, key, bytes)` (§4.2). -/
def Store.Put (db : Store) (bucket : Byte) (key value : List Byte) : Store :=
  { records := (bucket, key, value) :: db.records }

/-- Modelled from the spec: `Get(bucket, key) -> bytes|NotFound` (§4.2). -/
def Store.Get (db : Store) (bucket : Byte) (key : List Byte) : Except Failure (List Byte) :=
  match db.records.find? fun rec => decide (rec.1 = bucket) && decide (rec.2.1 = key) with
  | some rec => .ok rec.2.2
  | none => .error (.error "not found")

/-- Modelled from the spec: the binary serialization of PSM records (§6), whose byte format
the specification leaves open: the tag of the PSM bucket, the bytes of a key, and the encoder
and decoder of a record. -/
structure Codec where
  BucketPSM : Byte
  keyBytes : StateKey → List Byte
  encode : PSM → List Byte
  decode : List Byte → Except Failure PSM

/-- Modelled from the spec: `AddPSM` puts the encoded record into the PSM bucket under its
`StateKey` (§4.2); the result is the returned error and the store after the call. -/
def AddPSM (codec : Codec) (p : PSM) (db : Store) : Except Failure Unit × Store :=
  (.ok (), db.Put codec.BucketPSM (codec.keyBytes p.Key) (codec.encode p))

/-- Modelled from the spec: `GetPSM` gets the bytes stored in the PSM bucket under the
`StateKey` and decodes them (§4.2). -/
def GetPSM (codec : Codec) (k : StateKey) (db : Store) : Except Failure PSM :=
  match db.Get codec.BucketPSM (codec.keyBytes k) with
  | .ok bytes => codec.decode bytes
  | .error e => .error e

/-- A serialization for instantiating the theorems: a record is written as the number of its
transitions, and read back as the record of `mockStateDID` with that many default
transitions. -/
def exampleCodec : Codec :=
  { BucketPSM := 1
    keyBytes := fun k => bytesOf k.DID ++ [0] ++ bytesOf k.Nonce
    encode := fun p => [byte p.States.length]
    decode := fun bytes =>
      match bytes with
      | [n] => .ok { Key := { DID := "mockStateDID", Nonce := "mockStateNonce" }
                     States := List.replicate n.val {} }
      | _ => .error (.error "cannot decode") }

end psm

/-! ## Package `psm`: Representatives -/

namespace psm

/-- Modelled from the spec: what every Representative variant declares (§3), a key
extractor, its bytes and its bucket tag; the interface `Rep` is declared outside the embedded
sources, its methods `Key()`, `Data()` and `Type()` are those of `testRep` in the tests. -/
structure RepInterface (ρ : Type) where
  Key : ρ → StateKey
  Data : ρ → List Byte
  Type_ : ρ → Byte

/-- Modelled from the spec: the Representative Registry (§4.3), a table from bucket tag to
decoder. -/
def Registry (ρ : Type) : Type := Byte → Option (List Byte → ρ)

/-- Modelled from the spec: `Add(tag, decoder)`, the last registration for a tag wins
(§4.3). -/
def Registry.Add {ρ : Type} (reg : Registry ρ) (tag : Byte) (decoder : List Byte → ρ) :
    Registry ρ :=
  fun t => if t = tag then some decoder else reg t

/-- Modelled from the spec: `AddRep` puts the bytes of the Representative into the bucket
selected by its declared tag, under its key (§4.2). -/
def AddRep {ρ : Type} (I : RepInterface ρ) (keyBytes : StateKey → List Byte) (rep : ρ)
    (db : Store) : Except Failure Unit × Store :=
  (.ok (), db.Put (I.Type_ rep) (keyBytes (I.Key rep)) (I.Data rep))

/-- Modelled from the spec: `GetRep` gets the bytes stored in the bucket of the tag under the
key and decodes them with the decoder registered for the tag (§4.2, §4.3). -/
def GetRep {ρ : Type} (reg : Registry ρ) (keyBytes : StateKey → List Byte) (tag : Byte)
    (k : StateKey) (db : Store) : Except Failure ρ :=
  match db.Get tag (keyBytes k) with
  | .ok bytes =>
    match reg tag with
    | some decoder => .ok (decoder bytes)
    | none => .error (.error "no decoder registered")
  | .error e => .error e

/-- The struct `PairwiseRep` as the test `Test_addPairwiseRep` builds it. -/
structure PairwiseRep where
  Key : StateKey := {}
  Name : String := ""
  deriving DecidableEq, Repr

/-- Modelled from the spec: `AddPairwiseRep` is `AddRep` on a `PairwiseRep`. -/
def AddPairwiseRep (I : RepInterface PairwiseRep) (keyBytes : StateKey → List Byte)
    (rep : PairwiseRep) (db : Store) : Except Failure Unit × Store :=
  AddRep I keyBytes rep db

/-- Modelled from the spec: `GetPairwiseRep` is `GetRep` with the tag of the pairwise bucket. -/
def GetPairwiseRep (reg : Registry PairwiseRep) (keyBytes : StateKey → List Byte)
    (BucketPairwise : Byte) (k : StateKey) (db : Store) : Except Failure PairwiseRep :=
  GetRep reg keyBytes BucketPairwise k db

/-- A `PairwiseRep` interface for instantiating the theorems: bucket 2, the bytes of the
name as data. -/
def examplePairwiseInterface : RepInterface PairwiseRep :=
  { Key := fun rep => rep.Key, Data := fun rep => bytesOf rep.Name, Type_ := fun _ => 2 }

/-- A registry for instantiating the theorems: under tag 2 a decoder that reads the bytes of
`name` back as the Representative of `mockStateDID` named `name`. -/
def exampleRegistry : Registry PairwiseRep :=
  Registry.Add (fun _ => none) 2 fun bytes =>
    if bytes = bytesOf "name" then
      { Key := { DID := "mockStateDID", Nonce := "mockStateNonce" }, Name := "name" }
    else {}

end psm

/-! ## Package `sec`, continued -/

namespace sec

/-- The struct `transport.Envelope`. -/
structure Envelope where
  MediaTypeProfile : String := ""
  Message : List Byte := []
  FromKey : List Byte := []
  ToKeys : List String := []
  deriving DecidableEq, Repr

/-- What `Pipe.Pack` and `Pipe.Unpack` take from the packager of the pipe's `In` identity
(`PackMessage`, `UnpackMessage`) and from the identities (`Route()`, `String()`). -/
structure Transport where
  PackMessage : core.DID → Envelope → Except Failure (List Byte)
  UnpackMessage : core.DID → List Byte → Except Failure Envelope
  Route : core.DID → List String
  DIDString : core.DID → String

/-- The method `Pipe.Pack`.  The result `vk` is a named result that the body never assigns,
so it is returned as the empty string.  With a nil `In` or `Out` the reads of
`p.In.Storage()` and `p.Out.Route()` are nil dereferences. -/
def Pipe.Pack (tr : Transport) (defaultMediaType : String) (p : Pipe) (src : List Byte) :
    Except Failure (List Byte × String) :=
  annotate "sec pipe pack" <|
    match p.In, p.Out with
    | some inDID, some outDID => do
      let media := defaultMediaType
      let route := tr.Route outDID
      let toKeys := tr.DIDString outDID :: route.map fun r => "did:sov:" ++ r
      -- pack a non-empty envelope using packer selected by mediaType
      let dst ← tr.PackMessage inDID
        { MediaTypeProfile := media, Message := src, FromKey := bytesOf (tr.DIDString inDID),
          ToKeys := toKeys }
      return (dst, "")
    | _, _ => .error (.panic "nil pointer dereference")

/-- The method `Pipe.Unpack`.  The result `vk` is a named result that the body never
assigns, so it is returned as the empty string. -/
def Pipe.Unpack (tr : Transport) (p : Pipe) (src : List Byte) :
    Except Failure (List Byte × String) :=
  annotate "sec pipe unpack" <|
    match p.In with
    | none => .error (.panic "nil pointer dereference")
    | some inDID => do
      let env ← tr.UnpackMessage inDID src
      let dst := env.Message
      return (dst, "")

/-- A packager that leaves messages as they are, for instantiating the theorems. -/
def exampleTransport : Transport :=
  { PackMessage := fun _ env => .ok env.Message
    UnpackMessage := fun _ src => .ok { Message := src }
    Route := fun _ => []
    DIDString := fun d => "did:sov:" ++ d.KID }

/-- A pipe between two identities with non-empty verification keys. -/
def examplePipe : Pipe :=
  { In := some { KID := "ourKID", VerKey := "ourVerKey" }
    Out := some { KID := "theirKID", VerKey := "theirVerKey" } }

end sec

/-! ## Package `strings`, the prefix functions -/

namespace strings

/-- The call `strings.TrimPrefix(s, prefix)`. -/
def TrimPrefix (s pre : String) : String :=
  if HasPrefix s pre then String.mk (s.data.drop pre.data.length) else s

end strings

/-! ## Package `didexchange/v0`, continued -/

namespace v0

/-- The struct `Connection`: its DID and, of its DID document, the identifier `common.ID`
reads. -/
structure Connection where
  DID : String := ""
  DIDDocID : String := ""
  deriving DecidableEq, Repr

/-- The slice expression `data[n:]`: panics when `n` is beyond the length. -/
def sliceFrom (data : List Byte) (n : Nat) : Except Failure (List Byte) :=
  if n ≤ data.length then .ok (data.drop n) else .error (.panic "slice bounds out of range")

/-- The function `connectionFromSignedData`.  `DecodeB64` stands for `utils.DecodeB64`,
`FromJSON` for `dto.FromJSON` into a `Connection`; a failed `assert.SNotEmpty` is returned as
the error with its message. -/
def connectionFromSignedData (DecodeB64 : String → Except Failure (List Byte))
    (FromJSON : List Byte → Connection) (cs : ConnectionSignature) :
    Except Failure Connection := do
  let data ← DecodeB64 cs.SignedData
  if data.length = 0 then
    throw (.error missingInvalidErrorString)
  let connectionJSON ← sliceFrom data 8
  let connection := FromJSON connectionJSON
  let rawDID := connection.DIDDocID
  return { connection with DID := strings.TrimPrefix rawDID "did:sov:" }

end v0

/-! ## Package `didexchange` -/

namespace didexchange

/-- The struct `ConnectionSignature` of package `didexchange`. -/
structure ConnectionSignature where
  Type_ : String := ""
  SignedData : String := ""
  SignVerKey : String := ""
  Signature : String := ""
  deriving DecidableEq, Repr

/-- The struct `Connection` of package `didexchange`, as the bytes `dto.FromJSON` filled it
from. -/
structure Connection where
  JSON : List Byte := []
  deriving DecidableEq, Repr

def connectionSigExpTime : Int := 10 * 60 * 60

/-- The function `decodeB64`: `URLEncoding` first, `RawURLEncoding` when that fails. -/
def decodeB64 (URLDecode RawURLDecode : String → Except Failure (List Byte)) (str : String) :
    Except Failure (List Byte) :=
  match URLDecode str with
  | .ok data => .ok data
  | .error _ => RawURLDecode str

/-- The method `ConnectionSignature.verifySignature`.  `Verify` stands for the first result
of `pipe.Verify(data, signature)`, `now` for `time.Now().Unix()`; the result `.ok none` is
the pair `nil, nil`.  The subtraction is an `int64` subtraction. -/
def ConnectionSignature.verifySignature
    (URLDecode RawURLDecode : String → Except Failure (List Byte))
    (Verify : sec.Pipe → List Byte → List Byte → Bool) (now : Int)
    (cs : ConnectionSignature) (pipe : Option sec.Pipe) :
    Except Failure (Option Connection) :=
  sec.annotate "verify sign" <|
    let checked : Except Failure sec.Pipe :=
      match pipe with
      | some p =>
        match p.Out with
        | none => .error (.panic "nil pointer dereference")
        | some out =>
          if out.VerKey ≠ cs.SignVerKey then
            .error (.panic "programming error, we shouldn't be here")
          else .ok p
      | none =>
        -- we need a tmp DID for a tmp Pipe
        .ok { In := none, Out := some { KID := "", VerKey := cs.SignVerKey } }
    match checked with
    | .error e => .error e
    | .ok pipe => do
      let data ← decodeB64 URLDecode RawURLDecode cs.SignedData
      if data.length = 0 then
        throw (.error "missing or invalid signature data")
      let signature ← decodeB64 URLDecode RawURLDecode cs.Signature
      let ok := Verify pipe data signature
      if !ok then
        return none
      let timestamp := int64 (← binary.BigEndian.Uint64 data)
      if wrapInt64 (now - timestamp) > connectionSigExpTime then
        return none
      let connectionJSON ← v0.sliceFrom data 8
      return some { JSON := connectionJSON }

end didexchange

/-! ## Package `pb`, continued -/

namespace pb

/-- The message `Protocol_DIDExchangeMsg`. -/
structure Protocol_DIDExchangeMsg where
  InvitationJSON : String := ""
  Label : String := ""
  deriving DecidableEq, Repr

/-- The message `pb.Protocol`, reduced to what `createConnectionTask` reads:
`GetDIDExchange()`. -/
structure Protocol where
  DIDExchange : Option Protocol_DIDExchangeMsg := none
  deriving DecidableEq, Repr

/-- The message `ProtocolStatus_DIDExchangeStatus`. -/
structure ProtocolStatus_DIDExchangeStatus where
  ID : String := ""
  MyDID : String := ""
  TheirDID : String := ""
  TheirEndpoint : String := ""
  TheirLabel : String := ""
  deriving DecidableEq, Repr

/-- The message `pb.ProtocolStatus`: the field `Status` that `fillPairwiseStatus` sets, and
the state that it leaves alone. -/
structure ProtocolStatus where
  State : String := ""
  Status : Option ProtocolStatus_DIDExchangeStatus := none
  deriving DecidableEq, Repr

end pb

/-! ## Package `connection`, continued -/

namespace connection

/-- The function `createConnectionTask`.  `Translate` stands for `invitation.Translate`; the
result is the returned task together with the header after the call, which the function
writes through its pointer. -/
def createConnectionTask (Translate : String → Except Failure invitation.Invitation)
    (header : comm.TaskHeader) (protocol : Option pb.Protocol) :
    Except Failure (taskDIDExchange × comm.TaskHeader) :=
  sec.annotate "createConnectionTask" <|
    match protocol with
    | some protocol =>
      match protocol.DIDExchange with
      | none => .error (.panic "didExchange protocol data missing")
      | some didExchange => do
        let inv ← Translate didExchange.InvitationJSON
        let header := { header with TaskID := inv.ID }
        let label := didExchange.Label
        return ({ TaskBase := header, Invitation := inv, InvitationID := inv.ID,
                  Label := label }, header)
    | none =>
      let inv : invitation.Invitation := {}
      let label := ""
      .ok ({ TaskBase := header, Invitation := inv, InvitationID := inv.ID, Label := label },
        header)

/-- The function `fillPairwiseStatus`.  `getPairwiseRep` is the function of that name; the
result `none` is the nil that the function returns when `err2.CatchTrace` caught a failure. -/
def fillPairwiseStatus (getPairwiseRep : psm.StateKey → Except Failure pairwiseRep)
    (workerDID taskID : String) (ps : Option pb.ProtocolStatus) : Option pb.ProtocolStatus :=
  match ps with
  | none => none
  | some status =>
    let key : psm.StateKey := { DID := workerDID, Nonce := taskID }
    match getPairwiseRep key with
    | .error _ => none
    | .ok pw =>
      let myDID := pw.Callee
      let theirDID := pw.Caller
      let theirEndpoint := pw.Caller.Endp
      let sides : didRep × didRep × String :=
        if !myDID.My then (pw.Caller, pw.Callee, pw.Callee.Endp)
        else (myDID, theirDID, theirEndpoint)
      some { status with
        Status := some
          { ID := pw.Name
            MyDID := sides.1.DID
            TheirDID := sides.2.1.DID
            TheirEndpoint := sides.2.2
            TheirLabel := pw.TheirLabel } }

/-- The environment `exampleEnv` with a pairwise builder that rejects the request. -/
def exampleEnvPairwiseFails : Env :=
  { exampleEnv with
    ConnReqToResp := fun _ _ _ => .error (.error "cannot build connection response") }

end connection

/-! ## Package `server` -/

namespace server

/-- What the transport handler does to the response writer, the store and the scheduler. -/
inductive Effect where
  | WriteHeader (statusCode : Int)
  | Write (body : String)
  | HeaderSet (key value : String)
  | ReserveNonce (id : Nat)
  | AddRawPL (addr : endp.Addr) (data : List Byte)
  | DisposeNonce (id : Nat)
  | goTransportPL (ourAddress : endp.Addr) (data : List Byte)
  deriving DecidableEq, Repr

/-- The surroundings of the transport handler: `utils.Settings.HostAddr()`, the result of
`io.ReadAll(r.Body)`, `agency.IsHandlerInThisAgency`, `utils.NewNonce()` and the result of
`psm.AddRawPL`. -/
structure Env where
  HostAddr : String
  ReadAll : Except Failure (List Byte)
  IsHandlerInThisAgency : String → Bool
  NewNonce : Nat
  AddRawPL : endp.Addr → List Byte → Except Failure Unit

def StatusInternalServerError : Int := 500

def errorResponse : List Effect :=
  [.WriteHeader StatusInternalServerError, .Write "500 - Error"]

/-- The function `logRequestInfo` on the path `r.URL.Path`; `none` is nil. -/
def logRequestInfo (env : Env) (path : String) : Option endp.Addr :=
  let ourAddress := endp.NewServerAddr path
  if !ourAddress.Valid then none
  else some { ourAddress with BasePath := env.HostAddr }

/-- The function `saveIncoming`: the result, the address after the call and the effects. -/
def saveIncoming (env : Env) (addr : endp.Addr) (data : List Byte) :
    Bool × endp.Addr × List Effect :=
  let addr := { addr with ID := env.NewNonce }
  match env.AddRawPL addr data with
  | .error _ =>
    (false, addr, [.ReserveNonce addr.ID, .AddRawPL addr data, .DisposeNonce addr.ID])
  | .ok _ => (true, addr, [.ReserveNonce addr.ID, .AddRawPL addr data])

/-- The function `protocolTransport` on a request with the given path: its effects in order.
A failure of `io.ReadAll` ends in the handler of `err2.Catch`, which answers with
`errorResponse`. -/
def protocolTransport (env : Env) (path : String) : List Effect :=
  let ourAddress := logRequestInfo env path
  match env.ReadAll with
  | .error _ => errorResponse
  | .ok data =>
    match ourAddress with
    | none => errorResponse
    | some addr =>
      if env.IsHandlerInThisAgency addr.PlRcvr then
        match saveIncoming env addr data with
        | (true, addr, effects) =>
          effects ++ [.goTransportPL addr data, .HeaderSet "Content-Type" "application/json"]
        | (false, _, effects) => effects ++ errorResponse
      else errorResponse

/-- Surroundings in which everything succeeds, for instantiating the theorems. -/
def exampleEnv : Env :=
  { HostAddr := "http://localhost:8080"
    ReadAll := .ok [0x7B, 0x7D]
    IsHandlerInThisAgency := fun _ => true
    NewNonce := 1
    AddRawPL := fun _ _ => .ok () }

end server

/-! ## Lemmas: strings and DID syntax -/

namespace endp

theorem alphabet_inClass_ascii :
    ∀ c ∈ base58Alphabet, r.inClass c = true ∧ c.utf8Size = 1 := by
  decide

theorem slash_not_base58 : '/' ∉ base58Alphabet := by decide

theorem utf8Len_of_ascii (cs : List Char) (h : ∀ c ∈ cs, c.utf8Size = 1) :
    String.utf8Len cs = cs.length := by
  induction cs with
  | nil => rfl
  | cons c cs ih =>
    have hc : c.utf8Size = 1 := h c (List.mem_cons_self c cs)
    have hcs : String.utf8Len cs = cs.length := ih fun x hx => h x (List.mem_cons_of_mem c hx)
    simp only [String.utf8Len_cons, List.length_cons, hc, hcs]

theorem len_of_base58 (s : String) (h : ∀ c ∈ s.data, c ∈ base58Alphabet) :
    len s = s.length := by
  cases s with
  | mk cs =>
    show String.utf8Len cs = cs.length
    exact utf8Len_of_ascii cs fun c hc => (alphabet_inClass_ascii c (h c hc)).2

theorem matchString_of_base58 (s : String) (hlen : s.length = 21 ∨ s.length = 22)
    (h : ∀ c ∈ s.data, c ∈ base58Alphabet) : r.MatchString s = true := by
  have hl : s.data.length = s.length := rfl
  unfold regexp.Regexp.MatchString
  rw [List.any_eq_true]
  refine ⟨s.data.length, ?_, ?_⟩
  · rw [List.mem_range]
    show s.data.length < 22 + 1
    omega
  · have hall : (s.data.take s.data.length).all r.inClass = true := by
      rw [List.take_length, List.all_eq_true]
      exact fun c hc => (alphabet_inClass_ascii c (h c hc)).1
    have hlo : r.lo ≤ s.data.length := by
      show 21 ≤ s.data.length
      omega
    simp only [Bool.and_eq_true, decide_eq_true_eq]
    exact ⟨⟨hlo, le_refl _⟩, hall⟩

theorem isDID_of_validSyntax (s : String) (h : ValidDIDSyntax s) : IsDID s = true := by
  obtain ⟨hlen, hall⟩ := h
  have h1 : len s = s.length := len_of_base58 s hall
  have h2 : r.MatchString s = true := matchString_of_base58 s hlen hall
  unfold IsDID
  simp only [h1, h2, DIDLengthMin, DIDLengthMax, Bool.and_true, Bool.and_eq_true,
    decide_eq_true_eq]
  omega

end endp

/-! ## Lemmas: splitting a path -/

namespace strings

theorem splitChars_of_not_mem (sep : Char) (a : List Char) (h : sep ∉ a) :
    splitChars sep a = [a] := by
  induction a with
  | nil => rfl
  | cons c a ih =>
    have hc : ¬ c = sep := fun e => h (e ▸ List.mem_cons_self c a)
    have ha : sep ∉ a := fun m => h (List.mem_cons_of_mem c m)
    simp only [splitChars, if_neg hc, ih ha]

theorem splitChars_append (sep : Char) (a rest : List Char) (h : sep ∉ a) :
    splitChars sep (a ++ sep :: rest) = a :: splitChars sep rest := by
  induction a with
  | nil => simp only [List.nil_append, splitChars, if_true]
  | cons c a ih =>
    have hc : ¬ c = sep := fun e => h (e ▸ List.mem_cons_self c a)
    have ha : sep ∉ a := fun m => h (List.mem_cons_of_mem c m)
    rw [List.cons_append, splitChars, if_neg hc, ih ha]

end strings

namespace endp

theorem slash_not_mem_of_validSyntax (s : String) (h : ValidDIDSyntax s) : '/' ∉ s.data :=
  fun hm => slash_not_base58 (h.2 '/' hm)

theorem newServerAddr_two (service d : String) (hs : '/' ∉ service.data)
    (hd : '/' ∉ d.data) :
    NewServerAddr ("/" ++ service ++ "/" ++ d) = { Service := service, PlRcvr := d } := by
  have hsplit : strings.Split ("/" ++ service ++ "/" ++ d) '/' = ["", service, d] := by
    unfold strings.Split
    have hdata : ("/" ++ service ++ "/" ++ d).data
        = [] ++ '/' :: (service.data ++ '/' :: d.data) := by
      simp [String.data_append]
    rw [hdata, strings.splitChars_append '/' [] _ (List.not_mem_nil _),
      strings.splitChars_append '/' _ _ hs, strings.splitChars_of_not_mem '/' _ hd]
    rfl
  unfold NewServerAddr
  rw [hsplit]
  rfl

theorem newServerAddr_four (service d m p : String) (hs : '/' ∉ service.data)
    (hd : '/' ∉ d.data) (hm : '/' ∉ m.data) (hp : '/' ∉ p.data) :
    NewServerAddr ("/" ++ service ++ "/" ++ d ++ "/" ++ m ++ "/" ++ p)
      = { Service := service, PlRcvr := d, MsgRcvr := m, RcvrDID := p } := by
  have hsplit : strings.Split ("/" ++ service ++ "/" ++ d ++ "/" ++ m ++ "/" ++ p) '/'
      = ["", service, d, m, p] := by
    unfold strings.Split
    have hdata : ("/" ++ service ++ "/" ++ d ++ "/" ++ m ++ "/" ++ p).data
        = [] ++ '/' :: (service.data ++ '/' :: (d.data ++ '/' :: (m.data ++ '/' :: p.data))) := by
      simp [String.data_append]
    rw [hdata, strings.splitChars_append '/' [] _ (List.not_mem_nil _),
      strings.splitChars_append '/' _ _ hs, strings.splitChars_append '/' _ _ hd,
      strings.splitChars_append '/' _ _ hm, strings.splitChars_of_not_mem '/' _ hp]
    rfl
  unfold NewServerAddr
  rw [hsplit]
  rfl

theorem not_endpoint_of_validSyntax (s : String) (h : ValidDIDSyntax s) :
    IsInEndpoints s = false := by
  have hlen : s.length = 21 ∨ s.length = 22 := h.1
  have h1 : ¬ "ping" = s := by
    intro e
    rw [← e] at hlen
    revert hlen
    decide
  have h2 : ¬ "handshake" = s := by
    intro e
    rw [← e] at hlen
    revert hlen
    decide
  simp [IsInEndpoints, endpoints, h1, h2]

end endp

/-! ## Lemmas: timestamps -/

namespace v0

theorem bytes_of_length (data : List Byte) (h : 8 ≤ data.length) :
    ∃ b0 b1 b2 b3 b4 b5 b6 b7 rest,
      data = b0 :: b1 :: b2 :: b3 :: b4 :: b5 :: b6 :: b7 :: rest := by
  rcases data with _ | ⟨b0, _ | ⟨b1, _ | ⟨b2, _ | ⟨b3, _ | ⟨b4, _ | ⟨b5, _ | ⟨b6, _ |
    ⟨b7, rest⟩⟩⟩⟩⟩⟩⟩⟩
  all_goals first
    | exact ⟨_, _, _, _, _, _, _, _, _, rfl⟩
    | (simp only [List.length_cons, List.length_nil] at h; omega)

theorem bigEndian_lt (data : List Byte) (u : Nat) (h : binary.BigEndian.Uint64 data = .ok u) :
    u < 18446744073709551616 := by
  unfold binary.BigEndian.Uint64 at h
  split at h
  · rename_i b0 b1 b2 b3 b4 b5 b6 b7 _
    have := b0.isLt; have := b1.isLt; have := b2.isLt; have := b3.isLt
    have := b4.isLt; have := b5.isLt; have := b6.isLt; have := b7.isLt
    cases h
    omega
  · cases h

theorem littleEndian_lt (data : List Byte) (u : Nat)
    (h : binary.LittleEndian.Uint64 data = .ok u) : u < 18446744073709551616 := by
  unfold binary.LittleEndian.Uint64 at h
  split at h
  · rename_i b0 b1 b2 b3 b4 b5 b6 b7 _
    have := b0.isLt; have := b1.isLt; have := b2.isLt; have := b3.isLt
    have := b4.isLt; have := b5.isLt; have := b6.isLt; have := b7.isLt
    cases h
    omega
  · cases h

theorem int64_isInt64 (u : Nat) (h : u < 18446744073709551616) : IsInt64 (int64 u) := by
  unfold IsInt64 int64
  split <;> omega

theorem int64_uint64 (x : Int) (h : IsInt64 x) : int64 (uint64 x) = x := by
  unfold IsInt64 at h
  unfold int64 uint64
  split <;> omega

/-- Without overflow the `int64` test of `tsIsValid` is the window of the specification. -/
theorem tsIsValid_iff (now ts : Int) (hnow : IsInt64 now) (hlow : IsInt64 (now - 36000))
    (hts : IsInt64 ts) : tsIsValid now ts = true ↔ InWindow now ts := by
  unfold IsInt64 at hnow hlow hts
  unfold tsIsValid wrapInt64 connectionSigExpTime InWindow
  simp only [Bool.and_eq_true, decide_eq_true_eq, ge_iff_le]
  omega

/-- One step of a base-256 comparison with carry. -/
theorem digit_step (U V a b c q K : Int) (ha : 0 ≤ a) (ha2 : a < 256) (hb : 0 ≤ b)
    (hb2 : b < 256) (hc : c = 0 ∨ c = 1)
    (h : U * 256 + a = V * 256 + b + c + 256 * (q * K)) :
    ∃ c1 : Int, (c1 = 0 ∨ c1 = 1) ∧ U = V + c1 + q * K ∧ a + 256 * c1 = b + c := by
  generalize q * K = t at h ⊢
  rcases hc with rfl | rfl
  · by_cases hab : a = b
    · exact ⟨0, Or.inl rfl, by omega, by omega⟩
    · exfalso; omega
  · by_cases hab : a = b + 1
    · exact ⟨0, Or.inl rfl, by omega, by omega⟩
    · exact ⟨1, Or.inr rfl, by omega, by omega⟩

/-- A 64-bit value and its byte reversal never differ, modulo `2^64`, by an amount between
`1` and `65535`. -/
theorem reversal_gap (a0 a1 a2 a3 a4 a5 a6 a7 : Int)
    (l0 : 0 ≤ a0) (l1 : 0 ≤ a1) (l2 : 0 ≤ a2) (l3 : 0 ≤ a3)
    (l4 : 0 ≤ a4) (l5 : 0 ≤ a5) (l6 : 0 ≤ a6) (l7 : 0 ≤ a7)
    (h0 : a0 < 256) (h1 : a1 < 256) (h2 : a2 < 256) (h3 : a3 < 256)
    (h4 : a4 < 256) (h5 : a5 < 256) (h6 : a6 < 256) (h7 : a7 < 256) (d q : Int)
    (hd : 1 ≤ d) (hd2 : d ≤ 65535)
    (h : (a0 + a1 * 256 + a2 * 65536 + a3 * 16777216 + a4 * 4294967296 + a5 * 1099511627776
        + a6 * 281474976710656 + a7 * 72057594037927936)
      - (a7 + a6 * 256 + a5 * 65536 + a4 * 16777216 + a3 * 4294967296 + a2 * 1099511627776
        + a1 * 281474976710656 + a0 * 72057594037927936) = d + q * 18446744073709551616) :
    False := by
  -- the low 16 bits leave a carry `c` into the upper 48
  obtain ⟨c, hc, hH, hL⟩ : ∃ c : Int, (c = 0 ∨ c = 1) ∧
      (a2 + a3 * 256 + a4 * 65536 + a5 * 16777216 + a6 * 4294967296 + a7 * 1099511627776)
        = (a5 + a4 * 256 + a3 * 65536 + a2 * 16777216 + a1 * 4294967296 + a0 * 1099511627776)
          + c + q * 281474976710656 ∧
      (a0 + a1 * 256) + 65536 * c = (a7 + a6 * 256) + d := by
    by_cases hlt : (a7 + a6 * 256) + d < 65536
    · exact ⟨0, Or.inl rfl, by omega, by omega⟩
    · exact ⟨1, Or.inr rfl, by omega, by omega⟩
  -- the four middle digits, compared pairwise from the low end
  obtain ⟨c1, hc1, hU1, hd1⟩ := digit_step
    (a3 + a4 * 256 + a5 * 65536 + a6 * 16777216 + a7 * 4294967296)
    (a4 + a3 * 256 + a2 * 65536 + a1 * 16777216 + a0 * 4294967296)
    a2 a5 c q 1099511627776 l2 h2 l5 h5 hc (by omega)
  obtain ⟨c2, hc2, hU2, hd2⟩ := digit_step
    (a4 + a5 * 256 + a6 * 65536 + a7 * 16777216)
    (a3 + a2 * 256 + a1 * 65536 + a0 * 16777216)
    a3 a4 c1 q 4294967296 l3 h3 l4 h4 hc1 (by omega)
  obtain ⟨c3, hc3, hU3, hd3⟩ := digit_step
    (a5 + a6 * 256 + a7 * 65536)
    (a2 + a1 * 256 + a0 * 65536)
    a4 a3 c2 q 16777216 l4 h4 l3 h3 hc2 (by omega)
  obtain ⟨c4, hc4, hU4, hd4⟩ := digit_step
    (a6 + a7 * 256)
    (a1 + a0 * 256)
    a5 a2 c3 q 65536 l5 h5 l2 h2 hc3 (by omega)
  omega

theorem wrapInt64_eq (x : Int) : ∃ k : Int, wrapInt64 x = x - k * 18446744073709551616 :=
  ⟨(x + 9223372036854775808) / 18446744073709551616, by unfold wrapInt64; omega⟩

theorem int64_eq (u : Nat) : ∃ e : Int, int64 u = (u : Int) - e * 18446744073709551616 := by
  unfold int64
  split
  · exact ⟨0, by omega⟩
  · exact ⟨1, by omega⟩

/-- The little-endian reading of a stamp that is 36001 seconds old in its big-endian reading
is never fresh. -/
theorem littleEndian_stale (b0 b1 b2 b3 b4 b5 b6 b7 : Byte) (rest : List Byte) (u v : Nat)
    (hu : binary.BigEndian.Uint64 (b0 :: b1 :: b2 :: b3 :: b4 :: b5 :: b6 :: b7 :: rest)
      = .ok u)
    (hv : binary.LittleEndian.Uint64 (b0 :: b1 :: b2 :: b3 :: b4 :: b5 :: b6 :: b7 :: rest)
      = .ok v) :
    tsIsValid (int64 u + 36001) (int64 v) = false := by
  have := b0.isLt; have := b1.isLt; have := b2.isLt; have := b3.isLt
  have := b4.isLt; have := b5.isLt; have := b6.isLt; have := b7.isLt
  have hu' : (u : Int) = b7.val + b6.val * 256 + b5.val * 65536 + b4.val * 16777216
      + b3.val * 4294967296 + b2.val * 1099511627776 + b1.val * 281474976710656
      + b0.val * 72057594037927936 := by
    cases hu; push_cast; omega
  have hv' : (v : Int) = b0.val + b1.val * 256 + b2.val * 65536 + b3.val * 16777216
      + b4.val * 4294967296 + b5.val * 1099511627776 + b6.val * 281474976710656
      + b7.val * 72057594037927936 := by
    cases hv; push_cast; omega
  rw [Bool.eq_false_iff]
  intro hvalid
  unfold tsIsValid connectionSigExpTime at hvalid
  simp only [Bool.and_eq_true, decide_eq_true_eq, ge_iff_le] at hvalid
  obtain ⟨hge, hle⟩ := hvalid
  obtain ⟨k, hk⟩ := wrapInt64_eq (int64 u + 36001 - int64 v)
  obtain ⟨e1, he1⟩ := int64_eq u
  obtain ⟨e2, he2⟩ := int64_eq v
  rw [hk] at hge hle
  exact reversal_gap b0.val b1.val b2.val b3.val b4.val b5.val b6.val b7.val
    (by omega) (by omega) (by omega) (by omega) (by omega) (by omega) (by omega) (by omega)
    (by omega) (by omega) (by omega) (by omega) (by omega) (by omega) (by omega) (by omega)
    (36001 - (int64 u + 36001 - int64 v - k * 18446744073709551616)) (e2 - e1 - k)
    (by omega) (by omega) (by omega)

theorem decodings_of_length (data : List Byte) (h : 8 ≤ data.length) :
    ∃ be le, binary.BigEndian.Uint64 data = .ok be ∧ binary.LittleEndian.Uint64 data = .ok le := by
  obtain ⟨b0, b1, b2, b3, b4, b5, b6, b7, rest, rfl⟩ := bytes_of_length data h
  exact ⟨_, _, rfl, rfl⟩

/-- The two-step shape of `verifyTimestamp` once both decodings are known. -/
theorem verifyTimestamp_eq (now : Int) (data : List Byte) (be le : Nat)
    (hbe : binary.BigEndian.Uint64 data = .ok be)
    (hle : binary.LittleEndian.Uint64 data = .ok le) :
    verifyTimestamp now data =
      .ok (if tsIsValid now (int64 be) = true then (int64 be, true)
        else (int64 le, tsIsValid now (int64 le))) := by
  unfold verifyTimestamp
  rw [hbe, hle]
  by_cases h : tsIsValid now (int64 be) = true
  · simp [h, bind, Except.bind, pure, Except.pure]
  · simp [h, bind, Except.bind, pure, Except.pure]

theorem stamp_buffer (now : Int) (src : List Byte) :
    binary.BigEndian.PutUint64 (make (8 + src.length)) (uint64 now)
      = .ok (stamped now (List.replicate src.length 0)) := by
  unfold binary.BigEndian.PutUint64 make stamped
  have h : ¬ (List.replicate (8 + src.length) (0 : Byte)).length < 8 := by
    rw [List.length_replicate]; omega
  rw [if_neg h]
  simp

theorem stamp_copy (now : Int) (src : List Byte) :
    (stamped now (List.replicate src.length 0)).take 8
      ++ (copy ((stamped now (List.replicate src.length 0)).drop 8) src).1
      = stamped now src := by
  simp [stamped, copy]

theorem signAndStamp_eq (Sign : core.DID → List Byte → Except Failure (List Byte)) (now : Int)
    (ourDID : core.DID) (src : List Byte) :
    signAndStamp Sign now ourDID src
      = (Sign ourDID (stamped now src)).map fun dst => (stamped now src, dst, ourDID.VerKey) := by
  unfold signAndStamp
  dsimp only
  rw [stamp_buffer]
  simp only [bind, Except.bind, pure, Except.pure]
  rw [stamp_copy]
  cases Sign ourDID (stamped now src) <;> rfl

theorem uint64_lt (x : Int) : uint64 x < 18446744073709551616 := by
  unfold uint64
  omega

theorem byte_val (v : Nat) : (byte v).val = v % 256 := rfl

theorem stamped_bigEndian (now : Int) (src : List Byte) :
    binary.BigEndian.Uint64 (stamped now src) = .ok (uint64 now) := by
  have h := uint64_lt now
  unfold stamped binary.BigEndian.Uint64
  simp only [List.cons_append, List.nil_append, byte_val]
  congr 1
  omega

end v0

namespace sec

theorem pipe_signAndStamp_eq (packager : core.DID → Packager) (now : Int) (p : Pipe)
    (src : List Byte) :
    p.SignAndStamp packager now src
      = (p.Sign packager (v0.stamped now src)).map fun sv =>
          (v0.stamped now src, sv.1, sv.2) := by
  unfold Pipe.SignAndStamp
  dsimp only
  rw [v0.stamp_buffer]
  simp only [bind, Except.bind, pure, Except.pure]
  rw [v0.stamp_copy]
  cases p.Sign packager (v0.stamped now src) <;> rfl

end sec

/-! ## Theorems: `IsDID` -/

/-- C1: every string of exactly 21 or exactly 22 characters, all drawn from the base58
alphabet, is accepted by `IsDID`. -/
theorem isDID_accepts_valid_did (s : String) (hlen : s.length = 21 ∨ s.length = 22)
    (hchars : ∀ c ∈ s.data, c ∈ endp.base58Alphabet) : endp.IsDID s = true :=
  endp.isDID_of_validSyntax s ⟨hlen, hchars⟩

/-- The statement of C1 at the 22-character DID `WgWxqztrNooG92RXvxSTWv`. -/
theorem isDID_accepts_valid_did_witness :
    ("WgWxqztrNooG92RXvxSTWv".length = 21 ∨ "WgWxqztrNooG92RXvxSTWv".length = 22) ∧
      (∀ c ∈ "WgWxqztrNooG92RXvxSTWv".data, c ∈ endp.base58Alphabet) ∧
      endp.IsDID "WgWxqztrNooG92RXvxSTWv" = true :=
  ⟨by decide, by decide, isDID_accepts_valid_did "WgWxqztrNooG92RXvxSTWv" (by decide) (by decide)⟩

/-- C2: at the 22-character string made of 21 times `1` followed by `0`, whose last
character is outside the base58 alphabet, `IsDID` returns true: the expression of `r` has no
end anchor, so a match of the first 21 characters suffices. -/
theorem isDID_accepts_trailing_non_base58 :
    "1111111111111111111110".length = 22 ∧
      '0' ∈ "1111111111111111111110".data ∧ '0' ∉ endp.base58Alphabet ∧
      endp.IsDID "1111111111111111111110" = true := by
  decide

/-! ## Theorems: signature timestamps -/

/-- C3 (as stated, refuted): at evaluation time 1700000000 the payload whose first eight bytes
are the little-endian encoding of 1700000000 is reported valid, although its big-endian
timestamp `T` is far in the future, so that `0 <= T' - T <= 36000` fails. -/
theorem verifyTimestamp_littleEndian_rescue :
    8 ≤ ([0x00, 0xF1, 0x53, 0x65, 0, 0, 0, 0] : List Byte).length ∧
      binary.BigEndian.Uint64 [0x00, 0xF1, 0x53, 0x65, 0, 0, 0, 0] = .ok 67927162644070400 ∧
      ¬ (0 ≤ 1700000000 - int64 67927162644070400 ∧
          1700000000 - int64 67927162644070400 ≤ 36000) ∧
      v0.verifyTimestamp 1700000000 [0x00, 0xF1, 0x53, 0x65, 0, 0, 0, 0]
        = .ok (1700000000, true) := by
  decide

/-- C3 (amended): for every payload of at least 8 bytes with big-endian timestamp `T` and
little-endian timestamp `L`, and every evaluation time `T'` whose window start `T' - 36000`
is an `int64`, `verifyTimestamp` returns, and reports the payload valid if and only if
`0 <= T' - T <= 36000` or `0 <= T' - L <= 36000`. -/
theorem verifyTimestamp_valid_iff (now : Int) (data : List Byte) (hnow : IsInt64 now)
    (hlow : IsInt64 (now - 36000)) (hlen : 8 ≤ data.length) :
    ∃ be le ts valid,
      binary.BigEndian.Uint64 data = .ok be ∧ binary.LittleEndian.Uint64 data = .ok le ∧
      v0.verifyTimestamp now data = .ok (ts, valid) ∧
      (valid = true ↔
        (0 ≤ now - int64 be ∧ now - int64 be ≤ 36000) ∨
        (0 ≤ now - int64 le ∧ now - int64 le ≤ 36000)) := by
  obtain ⟨be, le, hbe, hle⟩ := v0.decodings_of_length data hlen
  have h1 := v0.tsIsValid_iff now (int64 be) hnow hlow
    (v0.int64_isInt64 be (v0.bigEndian_lt data be hbe))
  have h2 := v0.tsIsValid_iff now (int64 le) hnow hlow
    (v0.int64_isInt64 le (v0.littleEndian_lt data le hle))
  unfold v0.InWindow at h1 h2
  have heq := v0.verifyTimestamp_eq now data be le hbe hle
  by_cases hv : v0.tsIsValid now (int64 be) = true
  · rw [if_pos hv] at heq
    refine ⟨be, le, int64 be, true, hbe, hle, heq, ?_⟩
    have := h1.mp hv
    constructor
    · intro _; left; omega
    · intro _; rfl
  · rw [if_neg hv] at heq
    refine ⟨be, le, int64 le, v0.tsIsValid now (int64 le), hbe, hle, heq, ?_⟩
    have hnot : ¬ (now - 36000 ≤ int64 be ∧ int64 be ≤ now) := fun h => hv (h1.mpr h)
    rw [h2]
    constructor
    · intro h; right; omega
    · intro h
      rcases h with h | h
      · exfalso; apply hnot; omega
      · omega

/-- The amended C3 at time 1700000000 on a payload stamped little-endian with that time. -/
theorem verifyTimestamp_valid_iff_witness :
    IsInt64 1700000000 ∧ IsInt64 (1700000000 - 36000) ∧
      8 ≤ ([0x00, 0xF1, 0x53, 0x65, 0, 0, 0, 0] : List Byte).length ∧
      ∃ be le ts valid,
        binary.BigEndian.Uint64 [0x00, 0xF1, 0x53, 0x65, 0, 0, 0, 0] = .ok be ∧
        binary.LittleEndian.Uint64 [0x00, 0xF1, 0x53, 0x65, 0, 0, 0, 0] = .ok le ∧
        v0.verifyTimestamp 1700000000 [0x00, 0xF1, 0x53, 0x65, 0, 0, 0, 0] = .ok (ts, valid) ∧
        (valid = true ↔
          (0 ≤ 1700000000 - int64 be ∧ 1700000000 - int64 be ≤ 36000) ∨
          (0 ≤ 1700000000 - int64 le ∧ 1700000000 - int64 le ≤ 36000)) :=
  ⟨by decide, by decide, by decide,
    verifyTimestamp_valid_iff 1700000000 [0x00, 0xF1, 0x53, 0x65, 0, 0, 0, 0]
      (by decide) (by decide) (by decide)⟩

/-- C4: for every payload of at least 8 bytes whose big-endian prefix decodes to the timestamp
`T`, `verifyTimestamp` evaluated at `T' = T + 36001` returns and reports the payload invalid;
the little-endian reading of the same bytes is never inside the window at that time. -/
theorem verifyTimestamp_rejects_36001 (data : List Byte) (u : Nat) (hlen : 8 ≤ data.length)
    (hT : binary.BigEndian.Uint64 data = .ok u) (_hrep : IsInt64 (int64 u + 36001)) :
    ∃ ts, v0.verifyTimestamp (int64 u + 36001) data = .ok (ts, false) := by
  obtain ⟨b0, b1, b2, b3, b4, b5, b6, b7, rest, rfl⟩ := v0.bytes_of_length data hlen
  obtain ⟨be, le, hbe, hle⟩ := v0.decodings_of_length _ hlen
  have hube : be = u := by
    rw [hT] at hbe
    cases hbe
    rfl
  subst hube
  have hbig : v0.tsIsValid (int64 be + 36001) (int64 be) = false := by
    rw [Bool.eq_false_iff]
    unfold v0.tsIsValid wrapInt64 v0.connectionSigExpTime
    simp only [Bool.and_eq_true, decide_eq_true_eq, ge_iff_le, ne_eq]
    omega
  have hlittle := v0.littleEndian_stale b0 b1 b2 b3 b4 b5 b6 b7 rest be le hT hle
  refine ⟨int64 le, ?_⟩
  rw [v0.verifyTimestamp_eq _ _ be le hT hle, hbig, hlittle]
  rfl

/-- The statement of C4 at a payload stamped big-endian with `T = 1700000000`. -/
theorem verifyTimestamp_rejects_36001_witness :
    8 ≤ ([0, 0, 0, 0, 0x65, 0x53, 0xF1, 0x00] : List Byte).length ∧
      binary.BigEndian.Uint64 [0, 0, 0, 0, 0x65, 0x53, 0xF1, 0x00] = .ok 1700000000 ∧
      IsInt64 (int64 1700000000 + 36001) ∧
      ∃ ts, v0.verifyTimestamp (int64 1700000000 + 36001) [0, 0, 0, 0, 0x65, 0x53, 0xF1, 0x00]
        = .ok (ts, false) :=
  ⟨by decide, by decide, by decide,
    verifyTimestamp_rejects_36001 [0, 0, 0, 0, 0x65, 0x53, 0xF1, 0x00] 1700000000
      (by decide) (by decide) (by decide)⟩

/-- C5: for every payload of at least 8 bytes and every evaluation time `now` (with
`now - 36000` an `int64`), `verifyTimestamp` tries the big-endian decoding first: if that
value lies in `[now - 36000, now]` it returns it with valid = true; only otherwise it returns
the little-endian decoding, with valid = true exactly when that value lies in the window. -/
theorem verifyTimestamp_prefers_bigEndian (now : Int) (data : List Byte) (hnow : IsInt64 now)
    (hlow : IsInt64 (now - 36000)) (hlen : 8 ≤ data.length) :
    ∃ be le,
      binary.BigEndian.Uint64 data = .ok be ∧ binary.LittleEndian.Uint64 data = .ok le ∧
      (v0.InWindow now (int64 be) → v0.verifyTimestamp now data = .ok (int64 be, true)) ∧
      (¬ v0.InWindow now (int64 be) →
        v0.verifyTimestamp now data = .ok (int64 le, decide (v0.InWindow now (int64 le)))) := by
  obtain ⟨be, le, hbe, hle⟩ := v0.decodings_of_length data hlen
  have h1 := v0.tsIsValid_iff now (int64 be) hnow hlow
    (v0.int64_isInt64 be (v0.bigEndian_lt data be hbe))
  have h2 := v0.tsIsValid_iff now (int64 le) hnow hlow
    (v0.int64_isInt64 le (v0.littleEndian_lt data le hle))
  have heq := v0.verifyTimestamp_eq now data be le hbe hle
  refine ⟨be, le, hbe, hle, ?_, ?_⟩
  · intro hin
    rw [heq, if_pos (h1.mpr hin)]
  · intro hout
    have hv : ¬ v0.tsIsValid now (int64 be) = true := fun h => hout (h1.mp h)
    rw [heq, if_neg hv]
    congr 2
    rw [Bool.eq_iff_iff, h2, decide_eq_true_iff]

/-- The statement of C5 at time 1700000000 on a ten-byte payload stamped big-endian. -/
theorem verifyTimestamp_prefers_bigEndian_witness :
    IsInt64 1700000000 ∧ IsInt64 (1700000000 - 36000) ∧
      8 ≤ ([0, 0, 0, 0, 0x65, 0x53, 0xF1, 0x00, 0x7B, 0x7D] : List Byte).length ∧
      ∃ be le,
        binary.BigEndian.Uint64 [0, 0, 0, 0, 0x65, 0x53, 0xF1, 0x00, 0x7B, 0x7D] = .ok be ∧
        binary.LittleEndian.Uint64 [0, 0, 0, 0, 0x65, 0x53, 0xF1, 0x00, 0x7B, 0x7D] = .ok le ∧
        (v0.InWindow 1700000000 (int64 be) →
          v0.verifyTimestamp 1700000000 [0, 0, 0, 0, 0x65, 0x53, 0xF1, 0x00, 0x7B, 0x7D]
            = .ok (int64 be, true)) ∧
        (¬ v0.InWindow 1700000000 (int64 be) →
          v0.verifyTimestamp 1700000000 [0, 0, 0, 0, 0x65, 0x53, 0xF1, 0x00, 0x7B, 0x7D]
            = .ok (int64 le, decide (v0.InWindow 1700000000 (int64 le)))) :=
  ⟨by decide, by decide, by decide,
    verifyTimestamp_prefers_bigEndian 1700000000 [0, 0, 0, 0, 0x65, 0x53, 0xF1, 0x00, 0x7B, 0x7D]
      (by decide) (by decide) (by decide)⟩

/-- C6: stamp/verify round trip.  For every source byte sequence and every stamping time
`now`, the data `signAndStamp` stamps at `now` (and returns whenever the signer succeeds) is
reported valid by `verifyTimestamp`, with returned timestamp `now`, at every evaluation time
`now'` with `0 <= now' - now <= 36000`. -/
theorem stamp_verify_roundtrip (Sign : core.DID → List Byte → Except Failure (List Byte))
    (ourDID : core.DID) (src : List Byte) (now now' : Int) (hnow : IsInt64 now)
    (_hnow' : IsInt64 now') (h0 : 0 ≤ now' - now) (h1 : now' - now ≤ 36000) :
    ∃ data,
      v0.signAndStamp Sign now ourDID src
        = (Sign ourDID data).map (fun dst => (data, dst, ourDID.VerKey)) ∧
      v0.verifyTimestamp now' data = .ok (now, true) := by
  refine ⟨v0.stamped now src, v0.signAndStamp_eq Sign now ourDID src, ?_⟩
  have hbe := v0.stamped_bigEndian now src
  have hlen : 8 ≤ (v0.stamped now src).length := by
    simp [v0.stamped]
  obtain ⟨be, le, hbe', hle⟩ := v0.decodings_of_length _ hlen
  have hvalid : v0.tsIsValid now' now = true := by
    unfold IsInt64 at hnow
    unfold v0.tsIsValid wrapInt64 v0.connectionSigExpTime
    simp only [Bool.and_eq_true, decide_eq_true_eq, ge_iff_le]
    omega
  rw [v0.verifyTimestamp_eq now' _ (uint64 now) le hbe hle, v0.int64_uint64 now hnow,
    if_pos hvalid]

/-- The statement of C6 for a signer that echoes its input, stamped at 1700000000 and
verified 36000 seconds later. -/
theorem stamp_verify_roundtrip_witness :
    IsInt64 1700000000 ∧ IsInt64 1700036000 ∧ (0 : Int) ≤ 1700036000 - 1700000000 ∧
      (1700036000 : Int) - 1700000000 ≤ 36000 ∧
      ∃ data,
        v0.signAndStamp (fun _ d => .ok d) 1700000000 ⟨"kid", "vk"⟩ [0x7B, 0x7D]
          = (Except.ok data : Except Failure (List Byte)).map
              (fun dst => (data, dst, "vk")) ∧
        v0.verifyTimestamp 1700036000 data = .ok (1700000000, true) :=
  ⟨by decide, by decide, by decide, by decide,
    stamp_verify_roundtrip (fun _ d => .ok d) ⟨"kid", "vk"⟩ [0x7B, 0x7D] 1700000000 1700036000
      (by decide) (by decide) (by decide) (by decide)⟩

/-- C7: for every source `src` and epoch time `now` there is one stamped buffer `data` with
length `8 + len(src)`, whose first 8 bytes are the big-endian encoding of `now` (byte `i` is
the digit of weight `256^(7-i)`, and decoding gives `uint64(now)` back), whose remaining bytes
equal `src`, and both `Pipe.SignAndStamp` and `signAndStamp` hand exactly this buffer to the
signer and return it with the signature the signer computed over it. -/
theorem signAndStamp_layout (Sign : core.DID → List Byte → Except Failure (List Byte))
    (packager : core.DID → sec.Packager) (p : sec.Pipe) (ourDID : core.DID)
    (src : List Byte) (now : Int) :
    ∃ data : List Byte,
      data.length = 8 + src.length ∧
      data.take 8 = (List.range 8).map (fun i => byte (uint64 now / 256 ^ (7 - i))) ∧
      binary.BigEndian.Uint64 data = .ok (uint64 now) ∧
      data.drop 8 = src ∧
      p.SignAndStamp packager now src
        = (p.Sign packager data).map (fun sv => (data, sv.1, sv.2)) ∧
      v0.signAndStamp Sign now ourDID src
        = (Sign ourDID data).map (fun dst => (data, dst, ourDID.VerKey)) := by
  refine ⟨v0.stamped now src, ?_, ?_, v0.stamped_bigEndian now src, ?_,
    sec.pipe_signAndStamp_eq packager now p src, v0.signAndStamp_eq Sign now ourDID src⟩
  · simp [v0.stamped]
    omega
  · simp [v0.stamped, List.range, List.range.loop]
  · simp [v0.stamped]

/-- C8 (as stated, refuted): a response whose signature verifies and whose timestamp, all
zero bytes, is outside the freshness window at time 1700000000 under both decodings is
accepted: `verifySignature` returns nil. -/
theorem verifySignature_accepts_expired :
    binary.BigEndian.Uint64 [0, 0, 0, 0, 0, 0, 0, 0, 0x7B, 0x7D] = .ok 0 ∧
      binary.LittleEndian.Uint64 [0, 0, 0, 0, 0, 0, 0, 0, 0x7B, 0x7D] = .ok 0 ∧
      ¬ v0.InWindow 1700000000 (int64 0) ∧
      v0.verifyTimestamp 1700000000 [0, 0, 0, 0, 0, 0, 0, 0, 0x7B, 0x7D] = .ok (0, false) ∧
      v0.verifySignature
        (fun s => if s = "c2ln" then .ok [0x73, 0x69, 0x67]
          else .ok [0, 0, 0, 0, 0, 0, 0, 0, 0x7B, 0x7D])
        (fun _ _ _ _ => .ok ()) 1700000000
        { SignedData := "AAAAAAAAAAB7fQ==", SignVerKey := "vk", Signature := "c2ln" }
        ⟨"kid", "vk"⟩ = .ok () := by
  decide

/-- C8 (amended): for every connection response whose signed data decodes to at least 8 bytes
and whose connection signature verifies, `verifySignature` returns nil whatever the stamped
timestamp is; a timestamp outside the freshness window is only logged, not rejected. -/
theorem verifySignature_ignores_timestamp
    (DecodeB64 : String → Except Failure (List Byte))
    (VerifyWithKey : core.DID → String → List Byte → List Byte → Except Failure Unit)
    (now : Int) (cs : v0.ConnectionSignature) (DID : core.DID) (data sig : List Byte)
    (hdata : DecodeB64 cs.SignedData = .ok data) (hlen : 8 ≤ data.length)
    (hsig : DecodeB64 cs.Signature = .ok sig)
    (hver : VerifyWithKey DID cs.SignVerKey data sig = .ok ()) :
    v0.verifySignature DecodeB64 VerifyWithKey now cs DID = .ok () := by
  obtain ⟨be, le, hbe, hle⟩ := v0.decodings_of_length data hlen
  have hne : ¬ data.length = 0 := by omega
  unfold v0.verifySignature
  simp only [hdata, hsig, hver, v0.verifyTimestamp_eq now data be le hbe hle, bind,
    Except.bind, pure, Except.pure, if_neg hne]

/-- The amended C8 at a response with an all-zero timestamp, evaluated at 1700000000. -/
theorem verifySignature_ignores_timestamp_witness :
    v0.verifySignature
      (fun s => if s = "c2ln" then .ok [0x73, 0x69, 0x67]
        else .ok [0, 0, 0, 0, 0, 0, 0, 0, 0x7B, 0x7D])
      (fun _ _ _ _ => .ok ()) 1700000000
      { SignedData := "AAAAAAAAAAB7fQ==", SignVerKey := "vk", Signature := "c2ln" }
      ⟨"kid", "vk"⟩ = .ok () :=
  verifySignature_ignores_timestamp _ _ 1700000000
    { SignedData := "AAAAAAAAAAB7fQ==", SignVerKey := "vk", Signature := "c2ln" }
    ⟨"kid", "vk"⟩ [0, 0, 0, 0, 0, 0, 0, 0, 0x7B, 0x7D] [0x73, 0x69, 0x67]
    (by decide) (by decide) (by decide) (by decide)

/-! ## Theorems: address validity -/

/-- C9: for every `Addr`, `Valid` returns true if and only if `PlRcvr` is one of the
unencrypted endpoint names `ping` or `handshake`, or `PlRcvr`, `MsgRcvr` and `RcvrDID` all
pass `IsDID`. -/
theorem valid_iff (e : endp.Addr) :
    e.Valid = true ↔
      (e.PlRcvr = "ping" ∨ e.PlRcvr = "handshake") ∨
      (endp.IsDID e.PlRcvr = true ∧ endp.IsDID e.MsgRcvr = true ∧
        endp.IsDID e.RcvrDID = true) := by
  unfold endp.Addr.Valid endp.IsInEndpoints endp.endpoints
  by_cases h1 : "ping" = e.PlRcvr
  · simp [h1.symm]
  · by_cases h2 : "handshake" = e.PlRcvr
    · simp [h2.symm]
    · have h1' : ¬ e.PlRcvr = "ping" := fun h => h1 h.symm
      have h2' : ¬ e.PlRcvr = "handshake" := fun h => h2 h.symm
      simp [h1, h2, h1', h2', and_assoc]

/-- C10 (as stated, refuted): the address parsed from `/a2a/WgWxqztrNooG92RXvxSTWv`, a
service name followed by one syntactically valid DID, is not `Valid`. -/
theorem newServerAddr_did_only_not_valid :
    endp.ValidDIDSyntax "WgWxqztrNooG92RXvxSTWv" ∧
      endp.NewServerAddr "/a2a/WgWxqztrNooG92RXvxSTWv"
        = { Service := "a2a", PlRcvr := "WgWxqztrNooG92RXvxSTWv" } ∧
      (endp.NewServerAddr "/a2a/WgWxqztrNooG92RXvxSTWv").Valid = false := by
  decide

/-- C10 (amended): for every service name without `/` and every syntactically valid DID `d`,
the address parsed from `/service/d` with the optional segments omitted is not `Valid`,
because the empty `MsgRcvr` and `RcvrDID` fail DID validation; the address parsed from
`/service/d/m/p` is `Valid` whenever `m` and `p` are syntactically valid DIDs too. -/
theorem newServerAddr_valid_needs_all_dids (service d : String) (hs : '/' ∉ service.data)
    (hd : endp.ValidDIDSyntax d) :
    (endp.NewServerAddr ("/" ++ service ++ "/" ++ d)).Valid = false ∧
      ∀ m p : String, endp.ValidDIDSyntax m → endp.ValidDIDSyntax p →
        (endp.NewServerAddr ("/" ++ service ++ "/" ++ d ++ "/" ++ m ++ "/" ++ p)).Valid
          = true := by
  have hd' := endp.slash_not_mem_of_validSyntax d hd
  have hne := endp.not_endpoint_of_validSyntax d hd
  have hempty : endp.IsDID "" = false := by decide
  constructor
  · rw [endp.newServerAddr_two service d hs hd']
    simp [endp.Addr.Valid, hne, hempty]
  · intro m p hm hp
    rw [endp.newServerAddr_four service d m p hs hd'
      (endp.slash_not_mem_of_validSyntax m hm) (endp.slash_not_mem_of_validSyntax p hp)]
    simp [endp.Addr.Valid, hne, endp.isDID_of_validSyntax d hd,
      endp.isDID_of_validSyntax m hm, endp.isDID_of_validSyntax p hp]

/-- The amended C10 at service `a2a` and the DID `WgWxqztrNooG92RXvxSTWv`. -/
theorem newServerAddr_valid_needs_all_dids_witness :
    '/' ∉ "a2a".data ∧ endp.ValidDIDSyntax "WgWxqztrNooG92RXvxSTWv" ∧
      (endp.NewServerAddr ("/" ++ "a2a" ++ "/" ++ "WgWxqztrNooG92RXvxSTWv")).Valid = false ∧
      ∀ m p : String, endp.ValidDIDSyntax m → endp.ValidDIDSyntax p →
        (endp.NewServerAddr
          ("/" ++ "a2a" ++ "/" ++ "WgWxqztrNooG92RXvxSTWv" ++ "/" ++ m ++ "/" ++ p)).Valid
            = true :=
  ⟨by decide, by decide,
    newServerAddr_valid_needs_all_dids "a2a" "WgWxqztrNooG92RXvxSTWv" (by decide) (by decide)⟩


/-! ## Lemmas: parsing and printing addresses -/

namespace strings

theorem splitChars_sep_cons (sep : Char) (rest : List Char) :
    splitChars sep (sep :: rest) = [] :: splitChars sep rest := by
  rw [splitChars, if_pos rfl]

theorem split_of_data (s : String) (parts : List String)
    (h : splitChars '/' s.data = parts.map String.data) : Split s '/' = parts := by
  unfold Split
  rw [h, List.map_map]
  exact List.map_id parts

theorem hasSuffix_slash (s : String) :
    HasSuffix s "/" = decide (s.data.getLast? = some '/') := by
  unfold HasSuffix
  rw [List.isSuffixOf, List.getLast?_eq_head?_reverse]
  cases s.data.reverse with
  | nil => rfl
  | cons c cs =>
    have hd : "/".data.reverse = ['/'] := rfl
    by_cases h : c = '/'
    · subst h
      simp [hd, List.isPrefixOf]
    · have h' : ¬ '/' = c := fun e => h e.symm
      simp [hd, List.isPrefixOf, h, h']

end strings

namespace endp

theorem foldl_assignPart_frame (l : List (Nat × String)) (ea : Addr) :
    (l.foldl assignPart ea).BasePath = ea.BasePath ∧
      (l.foldl assignPart ea).VerKey = ea.VerKey ∧ (l.foldl assignPart ea).ID = ea.ID := by
  induction l generalizing ea with
  | nil => exact ⟨rfl, rfl, rfl⟩
  | cons ip l ih =>
    obtain ⟨h1, h2, h3⟩ := ih (assignPart ea ip)
    have hstep : (assignPart ea ip).BasePath = ea.BasePath ∧
        (assignPart ea ip).VerKey = ea.VerKey ∧ (assignPart ea ip).ID = ea.ID := by
      unfold assignPart
      split <;> exact ⟨rfl, rfl, rfl⟩
    rw [List.foldl_cons, h1, h2, h3]
    exact hstep

theorem newServerAddr_of_parts (s : String) (parts : List String)
    (h : strings.splitChars '/' s.data = parts.map String.data) :
    NewServerAddr s = parts.enum.foldl assignPart {} := by
  unfold NewServerAddr
  rw [strings.split_of_data s parts h]

theorem trimSuffix_slash (s : String) : strings.TrimSuffix s "/" = dropTrailingSlash s := by
  unfold strings.TrimSuffix dropTrailingSlash
  rw [strings.hasSuffix_slash]
  by_cases h : s.data.getLast? = some '/'
  · simp only [h, decide_True, if_true]
    rw [List.dropLast_eq_take]
    rfl
  · simp only [h, decide_False, if_false]
    rfl

theorem dropTrailingSlash_of_last (s : String) (h : s.data.getLast? ≠ some '/') :
    dropTrailingSlash s = s := by
  unfold dropTrailingSlash
  rw [if_neg h]

theorem last_append_of_ne (u f : String) (hf : f ≠ "") :
    (u ++ f).data.getLast? = f.data.getLast? := by
  have hne : f.data ≠ [] := fun e => hf (String.ext e)
  rw [String.data_append, List.getLast?_append]
  cases hl : f.data.getLast? with
  | none => exact absurd (List.getLast?_eq_none_iff.mp hl) hne
  | some c => rfl

theorem last_optionalSegment (u f : String) (hu : u.data.getLast? ≠ some '/')
    (hf : f.data.getLast? ≠ some '/') :
    (u ++ optionalSegment f).data.getLast? ≠ some '/' := by
  unfold optionalSegment
  by_cases h : f = ""
  · rw [if_pos h, String.append_empty]
    exact hu
  · rw [if_neg h, ← String.append_assoc, last_append_of_ne _ f h]
    exact hf

end endp

theorem comm.min_eq_min (a b : Nat) : comm.min a b = Min.min a b := by
  unfold comm.min
  split <;> omega

/-! ## Theorems: parsing and printing addresses -/

/-- C11: for every list of at most five segments without `/`, `NewServerAddr` applied to `/`
followed by the segments joined with `/` assigns them positionally to `Service`, `PlRcvr`,
`MsgRcvr`, `RcvrDID` and `EdgeToken` and leaves the fields of absent segments empty; and for
every input string it leaves `BasePath` and `VerKey` empty and `ID` zero. -/
theorem newServerAddr_positional (segs : List String) (hlen : segs.length ≤ 5)
    (hfree : ∀ s ∈ segs, '/' ∉ s.data) :
    endp.NewServerAddr ("/" ++ String.intercalate "/" segs)
        = { Service := segs.getD 0 "", PlRcvr := segs.getD 1 "", MsgRcvr := segs.getD 2 "",
            RcvrDID := segs.getD 3 "", EdgeToken := segs.getD 4 "" } ∧
      ∀ s : String, (endp.NewServerAddr s).BasePath = "" ∧ (endp.NewServerAddr s).VerKey = "" ∧
        (endp.NewServerAddr s).ID = 0 := by
  constructor
  · rcases segs with _ | ⟨a, _ | ⟨b, _ | ⟨c, _ | ⟨d, _ | ⟨e, _ | ⟨f, rest⟩⟩⟩⟩⟩⟩
    · exact endp.newServerAddr_of_parts _ ["", ""] (by decide)
    · have ha := hfree a (by simp)
      rw [endp.newServerAddr_of_parts _ ["", a]]
      · rfl
      · simp [String.intercalate, String.intercalate.go, strings.splitChars_sep_cons,
          strings.splitChars_of_not_mem, ha]
    · have ha := hfree a (by simp)
      have hb := hfree b (by simp)
      rw [endp.newServerAddr_of_parts _ ["", a, b]]
      · rfl
      · simp [String.intercalate, String.intercalate.go, strings.splitChars_sep_cons,
          strings.splitChars_append, strings.splitChars_of_not_mem, ha, hb]
    · have ha := hfree a (by simp)
      have hb := hfree b (by simp)
      have hc := hfree c (by simp)
      rw [endp.newServerAddr_of_parts _ ["", a, b, c]]
      · rfl
      · simp [String.intercalate, String.intercalate.go, strings.splitChars_sep_cons,
          strings.splitChars_append, strings.splitChars_of_not_mem, ha, hb, hc]
    · have ha := hfree a (by simp)
      have hb := hfree b (by simp)
      have hc := hfree c (by simp)
      have hd := hfree d (by simp)
      rw [endp.newServerAddr_of_parts _ ["", a, b, c, d]]
      · rfl
      · simp [String.intercalate, String.intercalate.go, strings.splitChars_sep_cons,
          strings.splitChars_append, strings.splitChars_of_not_mem, ha, hb, hc, hd]
    · have ha := hfree a (by simp)
      have hb := hfree b (by simp)
      have hc := hfree c (by simp)
      have hd := hfree d (by simp)
      have he := hfree e (by simp)
      rw [endp.newServerAddr_of_parts _ ["", a, b, c, d, e]]
      · rfl
      · simp [String.intercalate, String.intercalate.go, strings.splitChars_sep_cons,
          strings.splitChars_append, strings.splitChars_of_not_mem, ha, hb, hc, hd, he]
    · simp only [List.length_cons] at hlen
      omega
  · intro s
    exact endp.foldl_assignPart_frame _ {}

/-- The statement of C11 at the three segments `a2a`, `ping`, `x`. -/
theorem newServerAddr_positional_witness :
    (["a2a", "ping", "x"] : List String).length ≤ 5 ∧
      (∀ s ∈ (["a2a", "ping", "x"] : List String), '/' ∉ s.data) ∧
      endp.NewServerAddr ("/" ++ String.intercalate "/" ["a2a", "ping", "x"])
        = { Service := "a2a", PlRcvr := "ping", MsgRcvr := "x" } :=
  ⟨by decide, by decide,
    (newServerAddr_positional ["a2a", "ping", "x"] (by decide) (by decide)).1⟩

/-- C12: for every `Addr`, `Address()` equals `BasePath + "/" + Service + "/" + PlRcvr`,
followed by `"/" + MsgRcvr`, `"/" + RcvrDID` and `"/" + EdgeToken` for each of those fields
that is non-empty, in that order, with a single trailing `/` removed if present; when `PlRcvr`
is non-empty and none of the four fields ends in `/`, nothing is removed and the result is
that concatenation itself, of the form `/service/plRcvr[/msgRcvr[/rcvrDID[/edgeToken]]]`
after the base path. -/
theorem address_eq_spec (e : endp.Addr) :
    e.Address = endp.addressBySpec e ∧
      (e.PlRcvr ≠ "" →
        (∀ f ∈ [e.PlRcvr, e.MsgRcvr, e.RcvrDID, e.EdgeToken], f.data.getLast? ≠ some '/') →
        e.Address = e.BasePath ++ "/" ++ e.Service ++ "/" ++ e.PlRcvr
          ++ endp.optionalSegment e.MsgRcvr ++ endp.optionalSegment e.RcvrDID
          ++ endp.optionalSegment e.EdgeToken) := by
  have hspec : e.Address = endp.addressBySpec e := by
    unfold endp.Addr.Address endp.addressBySpec
    simp only [endp.trimSuffix_slash, endp.optionalSegment, ne_eq, ite_not]
    by_cases h1 : e.MsgRcvr = "" <;> by_cases h2 : e.RcvrDID = "" <;>
      by_cases h3 : e.EdgeToken = "" <;>
      simp only [h1, h2, h3, if_true, if_false, String.append_empty, String.append_assoc]
  refine ⟨hspec, ?_⟩
  intro hpl hlast
  rw [hspec]
  unfold endp.addressBySpec
  apply endp.dropTrailingSlash_of_last
  have h0 : (e.BasePath ++ "/" ++ e.Service ++ "/" ++ e.PlRcvr).data.getLast? ≠ some '/' := by
    rw [endp.last_append_of_ne _ _ hpl]
    exact hlast _ (by simp)
  exact endp.last_optionalSegment _ _
    (endp.last_optionalSegment _ _
      (endp.last_optionalSegment _ _ h0 (hlast _ (by simp))) (hlast _ (by simp)))
    (hlast _ (by simp))

/-! ## Theorems: HTTP status check -/

/-- C13: for every HTTP response and body, `checkHTTPStatus` returns the body unchanged with
no error if and only if the status code is 200; for every other status code it returns an
error and no data. -/
theorem checkHTTPStatus_ok_iff (response : http.Response) (data : List Byte) :
    (comm.checkHTTPStatus response data = (some data, none) ↔ response.StatusCode = 200) ∧
      (response.StatusCode ≠ 200 →
        ∃ msg, comm.checkHTTPStatus response data = (none, some msg)) := by
  unfold comm.checkHTTPStatus http.StatusOK
  by_cases h : response.StatusCode = 200
  · simp [h]
  · by_cases hp : strings.HasPrefix response.ContentType "text/plain" = true
    · simp [h, hp]
    · simp [h, hp]

/-- C14: for every non-200 response with body `b`: if the Content-Type header starts with
`text/plain`, the error message of `checkHTTPStatus` is the status line, then `: `, then
exactly the first `min(80, len(b))` bytes of `b`, never more than 80 of them; otherwise the
error message is exactly the status line. -/
theorem checkHTTPStatus_message (response : http.Response) (b : List Byte)
    (hcode : response.StatusCode ≠ 200) :
    (strings.HasPrefix response.ContentType "text/plain" = true →
      comm.checkHTTPStatus response b
        = (none, some (bytesOf response.Status ++ bytesOf ": "
            ++ b.take (Min.min 80 b.length)))) ∧
      (b.take (Min.min 80 b.length)).length ≤ 80 ∧
      (strings.HasPrefix response.ContentType "text/plain" = false →
        comm.checkHTTPStatus response b = (none, some (bytesOf response.Status))) := by
  unfold comm.checkHTTPStatus http.StatusOK comm.errorMessageMaxLength
  refine ⟨?_, ?_, ?_⟩
  · intro hp
    simp only [ne_eq, hcode, not_false_eq_true, if_true, hp, comm.min_eq_min]
  · rw [List.length_take]
    exact Nat.le_trans (Nat.min_le_left _ _) (Nat.min_le_left _ _)
  · intro hp
    simp [hcode, hp]

/-- The statement of C14 at a 500 response with a body of 100 bytes. -/
theorem checkHTTPStatus_message_witness :
    (500 : Int) ≠ 200 ∧
      comm.checkHTTPStatus ⟨500, "500 Internal Server Error", "text/plain; charset=utf-8"⟩
          (List.replicate 100 0x61)
        = (none, some (bytesOf "500 Internal Server Error" ++ bytesOf ": "
            ++ List.replicate 80 0x61)) :=
  ⟨by decide,
    (checkHTTPStatus_message ⟨500, "500 Internal Server Error", "text/plain; charset=utf-8"⟩
      (List.replicate 100 0x61) (by decide)).1 (by decide)⟩


/-! ## Lemmas: running the connection protocol -/

namespace connection

theorem run_bind {α β : Type} (m : Exec α) (f : α → Exec β) (s : State) :
    (m >>= f) s = match (m s).1 with
      | .ok a => f a (m s).2
      | .error e => (.error e, (m s).2) := rfl

theorem run_pure {α : Type} (a : α) (s : State) : (pure a : Exec α) s = (.ok a, s) := rfl

theorem run_call (env : Env) (c : Call) (s : State) :
    call env c s = (env.exec s.trace c,
      { s with trace := s.trace ++ [⟨c, (env.exec s.trace c).toBool⟩] }) := rfl

theorem run_note (c : Call) (s : State) :
    note c s = (.ok (), { s with trace := s.trace ++ [⟨c, true⟩] }) := rfl

theorem run_lift {α : Type} (x : Except Failure α) (s : State) : lift x s = (x, s) := rfl

theorem run_getTrace (s : State) : getTrace s = (.ok s.trace, s) := rfl

theorem run_getIpl (s : State) : getIpl s = (.ok s.ipl, s) := rfl

theorem run_setIplThreadID (id : String) (s : State) :
    setIplThreadID id s
      = (.ok (), { s with ipl := { s.ipl with Msg := { s.ipl.Msg with ThreadID := id } } }) :=
  rfl

theorem bind_call {β : Type} (env : Env) (c : Call) (f : Unit → Exec β) (s : State) :
    (call env c >>= f) s = match env.exec s.trace c with
      | .ok _ => f () { s with trace := s.trace ++ [⟨c, true⟩] }
      | .error e => (.error e, { s with trace := s.trace ++ [⟨c, false⟩] }) := by
  rw [run_bind, run_call]
  cases env.exec s.trace c <;> rfl

theorem last_call (env : Env) (c : Call) (s : State) :
    call env c s = match env.exec s.trace c with
      | .ok _ => (.ok (), { s with trace := s.trace ++ [⟨c, true⟩] })
      | .error e => (.error e, { s with trace := s.trace ++ [⟨c, false⟩] }) := by
  rw [run_call]
  cases env.exec s.trace c <;> rfl

theorem bind_lift {α β : Type} (x : Except Failure α) (f : α → Exec β) (s : State) :
    (lift x >>= f) s = match x with
      | .ok a => f a s
      | .error e => (.error e, s) := rfl

theorem bind_note {β : Type} (c : Call) (f : Unit → Exec β) (s : State) :
    (note c >>= f) s = f () { s with trace := s.trace ++ [⟨c, true⟩] } := rfl

theorem bind_getTrace {β : Type} (f : List Entry → Exec β) (s : State) :
    (getTrace >>= f) s = f s.trace s := rfl

theorem bind_getIpl {β : Type} (f : didcomm.Payload → Exec β) (s : State) :
    (getIpl >>= f) s = f s.ipl s := rfl

theorem bind_setIplThreadID {β : Type} (id : String) (f : Unit → Exec β) (s : State) :
    (setIplThreadID id >>= f) s
      = f () { s with ipl := { s.ipl with Msg := { s.ipl.Msg with ThreadID := id } } } := rfl

theorem annotate_fst {α : Type} (pre : String) (m : Exec α) (s : State) :
    (annotate pre m s).1 = sec.annotate pre (m s).1 := rfl

theorem annotate_snd {α : Type} (pre : String) (m : Exec α) (s : State) :
    (annotate pre m s).2 = (m s).2 := rfl

theorem annotate_eq_ok {α : Type} (pre : String) (x : Except Failure α) (a : α) :
    sec.annotate pre x = .ok a ↔ x = .ok a := by
  unfold sec.annotate
  split <;> simp_all

theorem annotate_of_error {α : Type} (pre : String) (x : Except Failure α) (e : Failure)
    (h : x = .error e) : ∃ e1, sec.annotate pre x = .error e1 := by
  subst h
  cases e with
  | error msg => exact ⟨_, rfl⟩
  | panic msg => exact ⟨_, rfl⟩

end connection

/-! ## Theorems: the connection protocol -/

/-- C15: for every inbound connection response whose connection signature does not verify
(`signature.Verify` reports false or fails), `handleConnectionResponse` returns an error
having made no call at all: no Representative is written (no `psm.AddRep`) and no PSM
transition is requested (no `prot.UpdatePSM`). -/
theorem handleConnectionResponse_unverified (env : connection.Env) (packet : comm.Packet)
    (hver : env.Verify packet.Payload.Msg = .ok false ∨
      ∃ e, env.Verify packet.Payload.Msg = .error e) :
    (∃ e, (connection.handleConnectionResponse env packet
        (connection.entryState packet)).1 = .error e) ∧
      (connection.handleConnectionResponse env packet (connection.entryState packet)).2.trace
        = [] ∧
      connection.repsWritten (connection.handleConnectionResponse env packet
        (connection.entryState packet)).2.trace = [] ∧
      connection.transitions (connection.handleConnectionResponse env packet
        (connection.entryState packet)).2.trace = [] := by
  have hrun : ∃ e, (connection.handleConnectionResponse env packet
        (connection.entryState packet)).1 = .error e ∧
      (connection.handleConnectionResponse env packet (connection.entryState packet)).2
        = connection.entryState packet := by
    unfold connection.handleConnectionResponse
    rw [connection.annotate_fst, connection.annotate_snd]
    rcases hver with h | ⟨e, h⟩
    · have hv : env.Verify (connection.entryState packet).ipl.Msg = .ok false := h
      simp only [connection.run_bind, connection.run_getIpl, connection.run_lift, hv]
      exact ⟨_, rfl, rfl⟩
    · have hv : env.Verify (connection.entryState packet).ipl.Msg = .error e := h
      simp only [connection.run_bind, connection.run_getIpl, connection.run_lift, hv]
      obtain ⟨e1, he1⟩ := connection.annotate_of_error (α := Unit) "connection response"
        (.error e) e rfl
      exact ⟨e1, he1, trivial⟩
  obtain ⟨e, herr, hstate⟩ := hrun
  refine ⟨⟨e, herr⟩, ?_, ?_, ?_⟩
  · rw [hstate]; rfl
  · rw [hstate]; rfl
  · rw [hstate]; rfl

/-- The statement of C15 at `exampleResponse`, with a verifier that reports false. -/
theorem handleConnectionResponse_unverified_witness :
    (connection.exampleEnvRejecting.Verify connection.exampleResponse.Payload.Msg = .ok false ∨
        ∃ e, connection.exampleEnvRejecting.Verify connection.exampleResponse.Payload.Msg
          = .error e) ∧
      (∃ e, (connection.handleConnectionResponse connection.exampleEnvRejecting
        connection.exampleResponse (connection.entryState connection.exampleResponse)).1
          = .error e) ∧
      (connection.handleConnectionResponse connection.exampleEnvRejecting
        connection.exampleResponse (connection.entryState connection.exampleResponse)).2.trace
          = [] :=
  ⟨Or.inl rfl,
    (handleConnectionResponse_unverified connection.exampleEnvRejecting
      connection.exampleResponse (Or.inl rfl)).1,
    (handleConnectionResponse_unverified connection.exampleEnvRejecting
      connection.exampleResponse (Or.inl rfl)).2.1⟩

/-- A trace that is guarded entry by entry keeps the discipline at every split. -/
theorem sendGuarded_split (pre0 tr : List connection.Entry)
    (h : connection.SendGuarded pre0 tr) (pre post : List connection.Entry)
    (en : connection.Entry) (htr : tr = pre ++ en :: post) :
    match en.call with
    | .SendPL _ _ task opl =>
      (∃ me my, ⟨.UpdatePSM me my task opl .Sending, true⟩ ∈ pre0 ++ pre) ∧
        (en.ok = false → post = [])
    | .UpdatePSM _ _ _ _ state =>
      (state = .Waiting ∨ state = .ReadyACK) →
        ∃ pipeIn pipeOut task opl, ⟨.SendPL pipeIn pipeOut task opl, true⟩ ∈ pre0 ++ pre
    | _ => True := by
  induction pre generalizing pre0 tr with
  | nil =>
    subst htr
    rw [List.append_nil]
    exact h.1
  | cons p pre ih =>
    subst htr
    have h2 : connection.SendGuarded (pre0 ++ [p]) (pre ++ en :: post) := h.2
    have := ih (pre0 ++ [p]) _ h2 rfl
    rw [List.append_assoc] at this
    exact this

theorem sendDiscipline_of_guarded (tr : List connection.Entry)
    (h : connection.SendGuarded [] tr) : connection.SendDiscipline tr := by
  constructor
  · intro pre post pipeIn pipeOut task opl ok htr
    have := sendGuarded_split [] tr h pre post _ htr
    simpa using this
  · intro pre post me my task pl state ok htr hstate
    have := sendGuarded_split [] tr h pre post _ htr
    simpa using this hstate

/-- With routing keys `buildRouting` returns `did:sov:`, the receiver key and the routing
keys; without routing keys it panics. -/
theorem buildRouting_cases (rKey : String) (r : String) (rs : List String) :
    connection.buildRouting rKey (r :: rs) = .ok ("did:sov:" :: rKey :: r :: rs) ∧
      connection.buildRouting rKey [] = .error (.panic "makeslice: cap out of range") := by
  constructor
  · unfold connection.buildRouting connection.makeStrings
    have h : ¬ (r :: rs).length + 1 < 2 := by
      simp only [List.length_cons]
      omega
    rw [if_neg h]
    rfl
  · rfl

/-- An initiator's run on an invitation without routing keys ends in the panic of
`buildRouting`, after the Representative was written and before any PSM transition is
requested; it is not a successful run. -/
theorem startConnectionProtocol_without_routing_keys :
    (connection.startConnectionProtocol connection.exampleEnv { WDID := "me" }
        connection.exampleTaskNoRouting {}).1 = .error (.panic "makeslice: cap out of range") ∧
      (connection.repsWritten
        (connection.startConnectionProtocol connection.exampleEnv { WDID := "me" }
          connection.exampleTaskNoRouting {}).2.trace).length = 1 ∧
      connection.transitions
        (connection.startConnectionProtocol connection.exampleEnv { WDID := "me" }
          connection.exampleTaskNoRouting {}).2.trace = [] := by
  decide

/-- C16: for every successful run of `startConnectionProtocol` with role INITIATOR, exactly
one pairwise Representative is persisted, keyed by the StateKey (me, task ID), with
`Caller.My == true` and an empty `Callee`, and the PSM transitions requested, all for that
task, are exactly `Sending` followed by `Waiting`. -/
theorem startConnectionProtocol_initiator (env : connection.Env) (ca : comm.Receiver)
    (deTask : connection.taskDIDExchange)
    (hrole : deTask.TaskBase.Role = pb.Role.INITIATOR)
    (hok : (connection.startConnectionProtocol env ca deTask {}).1 = .ok ()) :
    (connection.repsWritten
        (connection.startConnectionProtocol env ca deTask {}).2.trace).map
          (fun rep => (rep.StateKey, rep.Caller.My, rep.Callee))
        = [({ DID := ca.WDID, Nonce := deTask.TaskBase.TaskID }, true, {})] ∧
      (connection.transitions
        (connection.startConnectionProtocol env ca deTask {}).2.trace).map Prod.snd
        = [psm.SubState.Sending, psm.SubState.Waiting] ∧
      ∀ x ∈ connection.transitions
          (connection.startConnectionProtocol env ca deTask {}).2.trace,
        ∃ d, x.1 = connection.Task.didExchange d ∧
          d.TaskBase.TaskID = deTask.TaskBase.TaskID := by
  have hr : ¬ deTask.TaskBase.Role = pb.Role.ADDRESSEE := by rw [hrole]; decide
  revert hok
  unfold connection.startConnectionProtocol
  simp only [hr, if_false, connection.bind_call, connection.bind_lift,
    connection.bind_getTrace, connection.bind_note, connection.last_call, List.nil_append,
    List.cons_append]
  repeat' split
  all_goals simp [connection.repsWritten, connection.transitions]

/-- The statement of C16 at `exampleTask`, in an environment where every call succeeds. -/
theorem startConnectionProtocol_initiator_witness :
    connection.exampleTask.TaskBase.Role = pb.Role.INITIATOR ∧
      (connection.startConnectionProtocol connection.exampleEnv { WDID := "me" }
        connection.exampleTask {}).1 = .ok () ∧
      (connection.transitions
        (connection.startConnectionProtocol connection.exampleEnv { WDID := "me" }
          connection.exampleTask {}).2.trace).map Prod.snd
        = [psm.SubState.Sending, psm.SubState.Waiting] :=
  ⟨by decide, by decide,
    (startConnectionProtocol_initiator connection.exampleEnv { WDID := "me" }
      connection.exampleTask (by decide) (by decide)).2.1⟩

/-- C17: for every successful run of `handleConnectionRequest`, the PSM transitions requested
are exactly `Received`, `Sending`, `ReadyACK` in that order, and the one persisted pairwise
Representative has `Callee.My == true` and `Caller.My == false`. -/
theorem handleConnectionRequest_transitions (env : connection.Env) (packet : comm.Packet)
    (hok : (connection.handleConnectionRequest env packet
      (connection.entryState packet)).1 = .ok ()) :
    (connection.transitions (connection.handleConnectionRequest env packet
        (connection.entryState packet)).2.trace).map Prod.snd
        = [psm.SubState.Received, psm.SubState.Sending, psm.SubState.ReadyACK] ∧
      (connection.repsWritten (connection.handleConnectionRequest env packet
        (connection.entryState packet)).2.trace).map (fun rep => (rep.Callee.My, rep.Caller.My))
        = [(true, false)] := by
  revert hok
  unfold connection.handleConnectionRequest
  rw [connection.annotate_fst, connection.annotate_snd, connection.annotate_eq_ok]
  simp only [connection.saveConnectionEndpoint, connection.entryState, connection.bind_call,
    connection.bind_lift, connection.bind_getTrace, connection.bind_getIpl,
    connection.bind_setIplThreadID, connection.bind_note, connection.last_call,
    List.nil_append, List.cons_append]
  repeat' split
  all_goals simp [connection.repsWritten, connection.transitions]

/-- The statement of C17 at `exampleRequest`, in an environment where every call succeeds. -/
theorem handleConnectionRequest_transitions_witness :
    (connection.handleConnectionRequest connection.exampleEnv connection.exampleRequest
        (connection.entryState connection.exampleRequest)).1 = .ok () ∧
      (connection.transitions (connection.handleConnectionRequest connection.exampleEnv
        connection.exampleRequest (connection.entryState connection.exampleRequest)).2.trace).map
          Prod.snd
        = [psm.SubState.Received, psm.SubState.Sending, psm.SubState.ReadyACK] :=
  ⟨by decide,
    (handleConnectionRequest_transitions connection.exampleEnv connection.exampleRequest
      (by decide)).1⟩

/-- C18: in `startConnectionProtocol` (initiator) and in `handleConnectionRequest`, whatever
the other packages answer, every `comm.SendPL` call is preceded by a successful
`prot.UpdatePSM` recording `Sending` for the same task and the same payload, the following
`Waiting` or `ReadyACK` transition is requested only after a `comm.SendPL` that succeeded,
and after a `comm.SendPL` that failed nothing more is called, so no further transition is
recorded. -/
theorem sendPL_between_transitions (env : connection.Env) (ca : comm.Receiver)
    (deTask : connection.taskDIDExchange) (packet : comm.Packet)
    (hrole : deTask.TaskBase.Role = pb.Role.INITIATOR) :
    connection.SendDiscipline (connection.startConnectionProtocol env ca deTask {}).2.trace ∧
      connection.SendDiscipline (connection.handleConnectionRequest env packet
        (connection.entryState packet)).2.trace := by
  have hr : ¬ deTask.TaskBase.Role = pb.Role.ADDRESSEE := by rw [hrole]; decide
  constructor
  · apply sendDiscipline_of_guarded
    unfold connection.startConnectionProtocol
    simp only [hr, if_false, connection.bind_call, connection.bind_lift,
      connection.bind_getTrace, connection.bind_note, connection.last_call, List.nil_append,
      List.cons_append]
    repeat' split
    all_goals simp [connection.SendGuarded]
  · apply sendDiscipline_of_guarded
    unfold connection.handleConnectionRequest
    rw [connection.annotate_snd]
    simp only [connection.saveConnectionEndpoint, connection.entryState, connection.bind_call,
      connection.bind_lift, connection.bind_getTrace, connection.bind_getIpl,
      connection.bind_setIplThreadID, connection.bind_note, connection.last_call,
      List.nil_append, List.cons_append]
    repeat' split
    all_goals simp [connection.SendGuarded]

/-- The statement of C18 at `exampleTask` and `exampleRequest` with a network that is down:
the discipline holds and the only transition recorded by the initiator is `Sending`. -/
theorem sendPL_between_transitions_witness :
    connection.exampleTask.TaskBase.Role = pb.Role.INITIATOR ∧
      (connection.transitions
        (connection.startConnectionProtocol connection.exampleEnvNoNetwork { WDID := "me" }
          connection.exampleTask {}).2.trace).map Prod.snd = [psm.SubState.Sending] ∧
      connection.SendDiscipline
        (connection.startConnectionProtocol connection.exampleEnvNoNetwork { WDID := "me" }
          connection.exampleTask {}).2.trace ∧
      connection.SendDiscipline (connection.handleConnectionRequest
        connection.exampleEnvNoNetwork connection.exampleRequest
        (connection.entryState connection.exampleRequest)).2.trace :=
  ⟨by decide, by decide,
    sendPL_between_transitions connection.exampleEnvNoNetwork { WDID := "me" }
      connection.exampleTask connection.exampleRequest (by decide)⟩

/-- C19: for every successful run of `handleConnectionRequest`, also when the address carries
a non-empty `EdgeToken` that is substituted as connection ID, the inbound payload after the
call is the payload at entry, so its thread ID is unchanged; the response message handed to
`comm.SendPL` has the original thread ID; and the persisted Representative has the original
thread ID as the nonce of its StateKey, the connection ID (the `EdgeToken` when non-empty,
else the thread ID) being used only as its `Name`. -/
theorem handleConnectionRequest_thread_restored (env : connection.Env) (packet : comm.Packet)
    (hok : (connection.handleConnectionRequest env packet
      (connection.entryState packet)).1 = .ok ()) :
    (connection.handleConnectionRequest env packet (connection.entryState packet)).2.ipl
        = packet.Payload ∧
      (connection.payloadsSent (connection.handleConnectionRequest env packet
        (connection.entryState packet)).2.trace).map (fun opl => opl.Msg.ThreadID)
        = [packet.Payload.ThreadID] ∧
      (connection.repsWritten (connection.handleConnectionRequest env packet
        (connection.entryState packet)).2.trace).map (fun rep => (rep.StateKey.Nonce, rep.Name))
        = [(packet.Payload.ThreadID,
            if packet.Address.EdgeToken ≠ "" then packet.Address.EdgeToken
            else packet.Payload.ThreadID)] := by
  revert hok
  unfold connection.handleConnectionRequest
  rw [connection.annotate_fst, connection.annotate_snd, connection.annotate_eq_ok]
  simp only [connection.saveConnectionEndpoint, connection.entryState, connection.bind_call,
    connection.bind_lift, connection.bind_getTrace, connection.bind_getIpl,
    connection.bind_setIplThreadID, connection.bind_note, connection.last_call,
    List.nil_append, List.cons_append]
  repeat' split
  all_goals simp [connection.repsWritten, connection.payloadsSent, connection.NewMsg,
    didcomm.Payload.ThreadID]

/-- The statement of C19 at `exampleRequest`, whose address carries the edge token `edge`. -/
theorem handleConnectionRequest_thread_restored_witness :
    (connection.handleConnectionRequest connection.exampleEnv connection.exampleRequest
        (connection.entryState connection.exampleRequest)).1 = .ok () ∧
      (connection.handleConnectionRequest connection.exampleEnv connection.exampleRequest
        (connection.entryState connection.exampleRequest)).2.ipl.ThreadID = "thread1" ∧
      (connection.repsWritten (connection.handleConnectionRequest connection.exampleEnv
        connection.exampleRequest (connection.entryState connection.exampleRequest)).2.trace).map
          (fun rep => (rep.StateKey.Nonce, rep.Name)) = [("thread1", "edge")] :=
  ⟨by decide,
    congrArg didcomm.Payload.ThreadID
      (handleConnectionRequest_thread_restored connection.exampleEnv connection.exampleRequest
        (by decide)).1,
    (handleConnectionRequest_thread_restored connection.exampleEnv connection.exampleRequest
      (by decide)).2.2⟩

/-! ## Theorems: the state store -/

/-- C20: for every PSM record `p` (whose encoding decodes back to `p`) and every store,
`AddPSM(p)` succeeds, and `GetPSM` with `p`'s StateKey on the store it leaves succeeds and
returns `p`. -/
theorem addPSM_getPSM (codec : psm.Codec) (p : psm.PSM) (db : psm.Store)
    (hcodec : codec.decode (codec.encode p) = .ok p) :
    (psm.AddPSM codec p db).1 = .ok () ∧
      psm.GetPSM codec p.Key (psm.AddPSM codec p db).2 = .ok p := by
  refine ⟨rfl, ?_⟩
  unfold psm.GetPSM psm.AddPSM psm.Store.Put psm.Store.Get
  simp [List.find?, hcodec]

/-- The statement of C20 at the record of `mockStateDID` with two transitions, added to a
store that already holds another record under the same key. -/
theorem addPSM_getPSM_witness :
    psm.exampleCodec.decode (psm.exampleCodec.encode
        { Key := { DID := "mockStateDID", Nonce := "mockStateNonce" }, States := [{}, {}] })
        = .ok { Key := { DID := "mockStateDID", Nonce := "mockStateNonce" }, States := [{}, {}] } ∧
      psm.GetPSM psm.exampleCodec { DID := "mockStateDID", Nonce := "mockStateNonce" }
        (psm.AddPSM psm.exampleCodec
          { Key := { DID := "mockStateDID", Nonce := "mockStateNonce" }, States := [{}, {}] }
          (psm.AddPSM psm.exampleCodec
            { Key := { DID := "mockStateDID", Nonce := "mockStateNonce" }, States := [] }
            {}).2).2
        = .ok { Key := { DID := "mockStateDID", Nonce := "mockStateNonce" }, States := [{}, {}] } :=
  ⟨by decide,
    (addPSM_getPSM psm.exampleCodec
      { Key := { DID := "mockStateDID", Nonce := "mockStateNonce" }, States := [{}, {}] }
      (psm.AddPSM psm.exampleCodec
        { Key := { DID := "mockStateDID", Nonce := "mockStateNonce" }, States := [] } {}).2
      (by decide)).2⟩

/-! ## Theorems: Representatives -/

/-- C21: for every Representative `rep` of a variant whose decoder is registered under
`rep`'s type tag (and reads `rep`'s bytes back as `rep`), `AddRep(rep)` succeeds and `GetRep`
with `rep`'s type tag and key on the store it leaves succeeds and returns `rep`; the same
holds for a `PairwiseRep` through `AddPairwiseRep` and `GetPairwiseRep`. -/
theorem addRep_getRep {ρ : Type} (I : psm.RepInterface ρ) (reg : psm.Registry ρ)
    (keyBytes : psm.StateKey → List Byte) (rep : ρ) (db : psm.Store)
    (decoder : List Byte → ρ) (hreg : reg (I.Type_ rep) = some decoder)
    (hdec : decoder (I.Data rep) = rep) :
    (psm.AddRep I keyBytes rep db).1 = .ok () ∧
      psm.GetRep reg keyBytes (I.Type_ rep) (I.Key rep) (psm.AddRep I keyBytes rep db).2
        = .ok rep ∧
      ∀ (Ip : psm.RepInterface psm.PairwiseRep) (regp : psm.Registry psm.PairwiseRep)
        (pw : psm.PairwiseRep) (dec : List Byte → psm.PairwiseRep),
        regp (Ip.Type_ pw) = some dec → dec (Ip.Data pw) = pw →
        psm.GetPairwiseRep regp keyBytes (Ip.Type_ pw) (Ip.Key pw)
          (psm.AddPairwiseRep Ip keyBytes pw db).2 = .ok pw := by
  refine ⟨rfl, ?_, ?_⟩
  · unfold psm.GetRep psm.AddRep psm.Store.Put psm.Store.Get
    simp [List.find?, hreg, hdec]
  · intro Ip regp pw dec hregp hdecp
    unfold psm.GetPairwiseRep psm.AddPairwiseRep psm.GetRep psm.AddRep psm.Store.Put
      psm.Store.Get
    simp [List.find?, hregp, hdecp]

/-- The statement of C21 at the `PairwiseRep` of the test, named `name`. -/
theorem addRep_getRep_witness :
    psm.GetRep psm.exampleRegistry psm.exampleCodec.keyBytes 2
        { DID := "mockStateDID", Nonce := "mockStateNonce" }
        (psm.AddRep psm.examplePairwiseInterface psm.exampleCodec.keyBytes
          { Key := { DID := "mockStateDID", Nonce := "mockStateNonce" }, Name := "name" } {}).2
      = .ok { Key := { DID := "mockStateDID", Nonce := "mockStateNonce" }, Name := "name" } :=
  (addRep_getRep psm.examplePairwiseInterface psm.exampleRegistry psm.exampleCodec.keyBytes
    { Key := { DID := "mockStateDID", Nonce := "mockStateNonce" }, Name := "name" } {}
    (fun bytes =>
      if bytes = bytesOf "name" then
        { Key := { DID := "mockStateDID", Nonce := "mockStateNonce" }, Name := "name" }
      else {})
    rfl (by decide)).2.1

/-! ## Theorems: packing and unpacking -/

/-- C22: every successful call of `Pipe.Unpack` and of `Pipe.Pack` returns the empty string
as verification key; so does, in particular, the call on `examplePipe`, whose identity has
the verification key `ourVerKey`. -/
theorem pipe_pack_unpack_verkey_empty :
    (∀ (tr : sec.Transport) (p : sec.Pipe) (src dst : List Byte) (vk : String),
        p.Unpack tr src = .ok (dst, vk) → vk = "") ∧
      (∀ (tr : sec.Transport) (media : String) (p : sec.Pipe) (src dst : List Byte)
        (vk : String), p.Pack tr media src = .ok (dst, vk) → vk = "") ∧
      sec.examplePipe.In = some { KID := "ourKID", VerKey := "ourVerKey" } ∧
      sec.examplePipe.Unpack sec.exampleTransport [0x7B, 0x7D] = .ok ([0x7B, 0x7D], "") ∧
      sec.examplePipe.Pack sec.exampleTransport "" [0x7B, 0x7D] = .ok ([0x7B, 0x7D], "") := by
  refine ⟨?_, ?_, by decide, by decide, by decide⟩
  · intro tr p src dst vk h
    unfold sec.Pipe.Unpack sec.annotate at h
    cases hin : p.In with
    | none => simp [hin] at h
    | some inDID =>
      cases hu : tr.UnpackMessage inDID src with
      | error e => cases e <;> simp [hin, hu, bind, Except.bind] at h
      | ok env =>
        simp [hin, hu, bind, Except.bind, pure, Except.pure] at h
        exact h.2.symm
  · intro tr media p src dst vk h
    unfold sec.Pipe.Pack sec.annotate at h
    cases hin : p.In with
    | none => simp [hin] at h
    | some inDID =>
      cases hout : p.Out with
      | none => simp [hin, hout] at h
      | some outDID =>
        simp only [hin, hout] at h
        split at h
        · cases h
        · simp only [bind, Except.bind, pure, Except.pure] at h
          split at h
          · cases h
          · cases h
            rfl

/-! ## Theorems: status and task of the connection protocol -/

/-- C23: for every pairwise Representative stored under the key (workerDID, taskID),
`fillPairwiseStatus` fills the DIDExchange status with ID = the Representative's `Name`,
TheirLabel = its `TheirLabel`, MyDID = the DID of `Callee` if `Callee.My`, otherwise of
`Caller`, and TheirDID and TheirEndpoint = the DID and endpoint of the other side. -/
theorem fillPairwiseStatus_fields
    (getPairwiseRep : psm.StateKey → Except Failure connection.pairwiseRep)
    (workerDID taskID : String) (ps : pb.ProtocolStatus) (pw : connection.pairwiseRep)
    (hstored : getPairwiseRep { DID := workerDID, Nonce := taskID } = .ok pw) :
    connection.fillPairwiseStatus getPairwiseRep workerDID taskID (some ps)
      = some { ps with
          Status := some
            { ID := pw.Name
              TheirLabel := pw.TheirLabel
              MyDID := if pw.Callee.My = true then pw.Callee.DID else pw.Caller.DID
              TheirDID := if pw.Callee.My = true then pw.Caller.DID else pw.Callee.DID
              TheirEndpoint :=
                if pw.Callee.My = true then pw.Caller.Endp else pw.Callee.Endp } } := by
  unfold connection.fillPairwiseStatus
  simp only [hstored]
  cases h : pw.Callee.My <;> simp

/-- The statement of C23 at a Representative of the initiator side. -/
theorem fillPairwiseStatus_fields_witness :
    connection.fillPairwiseStatus
        (fun k => .ok { StateKey := k, Name := "inv1", TheirLabel := "peer"
                        Caller := { DID := "callerDID", My := true }
                        Callee := { DID := "calleeDID", Endp := "http://peer/a2a" } })
        "me" "inv1" (some {})
      = some { Status := some { ID := "inv1", TheirLabel := "peer", MyDID := "callerDID"
                                TheirDID := "calleeDID", TheirEndpoint := "http://peer/a2a" } } :=
  fillPairwiseStatus_fields
    (fun k => .ok { StateKey := k, Name := "inv1", TheirLabel := "peer"
                    Caller := { DID := "callerDID", My := true }
                    Callee := { DID := "calleeDID", Endp := "http://peer/a2a" } })
    "me" "inv1" {} _ rfl

/-- C24: for every task header and every non-nil protocol whose DIDExchange invitation
translates successfully, `createConnectionTask` returns a task whose task ID and
`InvitationID` both equal the invitation's ID, the header's TaskID being overwritten, and
whose `Label` is the protocol's label; when the protocol is nil the task keeps the header's
TaskID and has an empty invitation. -/
theorem createConnectionTask_ids (Translate : String → Except Failure invitation.Invitation)
    (header : comm.TaskHeader) (didExchange : pb.Protocol_DIDExchangeMsg)
    (inv : invitation.Invitation) (htr : Translate didExchange.InvitationJSON = .ok inv) :
    (∃ task header1,
        connection.createConnectionTask Translate header (some { DIDExchange := some didExchange })
          = .ok (task, header1) ∧
        task.TaskBase.TaskID = inv.ID ∧ task.InvitationID = inv.ID ∧
        task.Label = didExchange.Label ∧ task.Invitation = inv ∧ header1.TaskID = inv.ID) ∧
      ∃ task,
        connection.createConnectionTask Translate header none = .ok (task, header) ∧
        task.TaskBase.TaskID = header.TaskID ∧ task.Invitation = {} ∧
        task.InvitationID = "" ∧ task.Label = "" := by
  constructor
  · refine ⟨(⟨{ header with TaskID := inv.ID }, inv, inv.ID, didExchange.Label⟩ :
        connection.taskDIDExchange), { header with TaskID := inv.ID }, ?_, rfl, rfl, rfl,
      rfl, rfl⟩
    unfold connection.createConnectionTask
    simp only [htr, bind, Except.bind, pure, Except.pure]
    rfl
  · exact ⟨_, rfl, rfl, rfl, rfl, rfl⟩

/-- The statement of C24 at an invitation with ID `inv1` and a header with TaskID `old`. -/
theorem createConnectionTask_ids_witness :
    ∃ task header1,
      connection.createConnectionTask (fun _ => .ok { ID := "inv1", Label := "peer" })
          { TaskID := "old" } (some { DIDExchange := some { InvitationJSON := "", Label := "me" } })
        = .ok (task, header1) ∧
      task.TaskBase.TaskID = "inv1" ∧ task.InvitationID = "inv1" ∧ task.Label = "me" ∧
      task.Invitation = { ID := "inv1", Label := "peer" } ∧ header1.TaskID = "inv1" :=
  (createConnectionTask_ids (fun _ => .ok { ID := "inv1", Label := "peer" })
    { TaskID := "old" } { InvitationJSON := "", Label := "me" }
    { ID := "inv1", Label := "peer" } rfl).1

/-! ## Theorems: the transport handler -/

/-- C25: for every inbound transport request whose URL path parses to an address that is not
`Valid`, `logRequestInfo` returns nil and `protocolTransport` answers with HTTP 500 and does
nothing else: `psm.AddRawPL` is not called and nothing is dispatched to `transportPL`. -/
theorem protocolTransport_invalid_address (env : server.Env) (path : String)
    (hinvalid : (endp.NewServerAddr path).Valid = false) :
    server.logRequestInfo env path = none ∧
      server.protocolTransport env path = [.WriteHeader 500, .Write "500 - Error"] ∧
      ∀ addr data, server.Effect.AddRawPL addr data ∉ server.protocolTransport env path ∧
        server.Effect.goTransportPL addr data ∉ server.protocolTransport env path := by
  have hlog : server.logRequestInfo env path = none := by
    unfold server.logRequestInfo
    simp [hinvalid]
  have hrun : server.protocolTransport env path = [.WriteHeader 500, .Write "500 - Error"] := by
    unfold server.protocolTransport
    rw [hlog]
    cases env.ReadAll <;> rfl
  refine ⟨hlog, hrun, ?_⟩
  intro addr data
  rw [hrun]
  simp

/-- The statement of C25 at the path `/a2a/notadid`. -/
theorem protocolTransport_invalid_address_witness :
    (endp.NewServerAddr "/a2a/notadid").Valid = false ∧
      server.logRequestInfo server.exampleEnv "/a2a/notadid" = none ∧
      server.protocolTransport server.exampleEnv "/a2a/notadid"
        = [.WriteHeader 500, .Write "500 - Error"] :=
  ⟨by decide,
    (protocolTransport_invalid_address server.exampleEnv "/a2a/notadid" (by decide)).1,
    (protocolTransport_invalid_address server.exampleEnv "/a2a/notadid" (by decide)).2.1⟩

/-! ## Theorems: the signature check of package `didexchange` -/

/-- C26: at time 1700000000, a `ConnectionSignature` whose signature verifies and whose signed
data is stamped big-endian with 1700000100, a hundred seconds in the future, so that
`0 <= now - timestamp` fails, gets a Connection from `ConnectionSignature.verifySignature`:
the code tests only `now - timestamp > 36000`. -/
theorem verifySignature_accepts_future_stamp :
    binary.BigEndian.Uint64 [0, 0, 0, 0, 0x65, 0x53, 0xF1, 0x64, 0x7B, 0x7D]
        = .ok 1700000100 ∧
      ¬ (0 ≤ 1700000000 - int64 1700000100 ∧ 1700000000 - int64 1700000100 ≤ 36000) ∧
      didexchange.ConnectionSignature.verifySignature
        (fun s => if s = "c2ln" then .ok [0x73, 0x69, 0x67]
          else .ok [0, 0, 0, 0, 0x65, 0x53, 0xF1, 0x64, 0x7B, 0x7D])
        (fun _ => .error (.error "illegal base64 data")) (fun _ _ _ => true) 1700000000
        { SignedData := "AAAAAGVT8WR7fQ==", SignVerKey := "vk", Signature := "c2ln" } none
        = .ok (some { JSON := [0x7B, 0x7D] }) := by
  decide

/-! ## Theorems: the connection response -/

theorem connection.ite_run {α : Type} (c : Prop) [Decidable c] (m1 m2 : connection.Exec α)
    (s : connection.State) : (if c then m1 else m2) s = if c then m1 s else m2 s := by
  split <;> rfl

/-- C27: for every successful run of `handleConnectionResponse`, the one Representative it
writes is the Representative that `getPairwiseRep` returned for (meDID, thread ID) with only
`Callee` replaced, by the responder's DID and endpoint with `My == false`; `StateKey`,
`Name`, `TheirLabel` and `Caller`, hence `Caller.My`, are those of the stored record. -/
theorem handleConnectionResponse_keeps_caller (env : connection.Env) (packet : comm.Packet)
    (hok : (connection.handleConnectionResponse env packet
      (connection.entryState packet)).1 = .ok ()) :
    ∃ tr0 pwr calleeEndp,
      env.getPairwiseRep tr0
        { DID := packet.Receiver.MyDID, Nonce := packet.Payload.ThreadID } = .ok pwr ∧
      endp.NewAddrFromPublic env.Parse packet.Payload.Msg.Endpoint = .ok calleeEndp ∧
      connection.repsWritten (connection.handleConnectionResponse env packet
        (connection.entryState packet)).2.trace
        = [{ pwr with
              Callee := { DID := packet.Payload.Msg.Did, VerKey := calleeEndp.VerKey,
                          Endp := calleeEndp.Address, My := false } }] := by
  revert hok
  unfold connection.handleConnectionResponse
  rw [connection.annotate_fst, connection.annotate_snd, connection.annotate_eq_ok]
  simp only [connection.saveConnectionEndpoint, connection.entryState, connection.bind_call,
    connection.bind_lift, connection.bind_getTrace, connection.bind_getIpl,
    connection.bind_note, connection.last_call, connection.ite_run, connection.run_lift,
    List.nil_append, List.cons_append]
  repeat' split
  all_goals intro hok
  all_goals first
    | (simp at hok; done)
    | (refine ⟨_, _, _, by assumption, by assumption, ?_⟩
       simp [connection.repsWritten])

/-- The statement of C27 at `exampleResponse`, in an environment where every call succeeds. -/
theorem handleConnectionResponse_keeps_caller_witness :
    (connection.handleConnectionResponse connection.exampleEnv connection.exampleResponse
        (connection.entryState connection.exampleResponse)).1 = .ok () ∧
      ∃ tr0 pwr calleeEndp,
        connection.exampleEnv.getPairwiseRep tr0 { DID := "me", Nonce := "inv1" } = .ok pwr ∧
        endp.NewAddrFromPublic connection.exampleEnv.Parse
          connection.exampleResponse.Payload.Msg.Endpoint = .ok calleeEndp ∧
        connection.repsWritten (connection.handleConnectionResponse connection.exampleEnv
          connection.exampleResponse (connection.entryState connection.exampleResponse)).2.trace
          = [{ pwr with
                Callee := { DID := "pwDID", VerKey := calleeEndp.VerKey,
                            Endp := calleeEndp.Address, My := false } }] :=
  ⟨by decide,
    handleConnectionResponse_keeps_caller connection.exampleEnv connection.exampleResponse
      (by decide)⟩

/-! ## Theorems: short signed data and the substituted thread -/

/-- C29: when the signed data decodes to the single byte `0`, `connectionFromSignedData`
fails slicing `data[8:]` out of bounds and `verifySignature`, the signature verifying, fails
reading the timestamp prefix; neither returns the error `missing or invalid signature data`.
Only empty data is answered with that error. -/
theorem short_signed_data_not_rejected :
    v0.connectionFromSignedData (fun _ => .ok [0]) (fun _ => {})
        { SignedData := "AA==", SignVerKey := "vk", Signature := "c2ln" }
        = .error (.panic "slice bounds out of range") ∧
      v0.verifySignature (fun s => if s = "c2ln" then .ok [0x73, 0x69, 0x67] else .ok [0])
        (fun _ _ _ _ => .ok ()) 1700000000
        { SignedData := "AA==", SignVerKey := "vk", Signature := "c2ln" } ⟨"kid", "vk"⟩
        = .error (.panic "index out of range") ∧
      v0.connectionFromSignedData (fun _ => .ok []) (fun _ => {})
        { SignedData := "", SignVerKey := "vk", Signature := "c2ln" }
        = .error (.error v0.missingInvalidErrorString) := by
  decide

/-- C30: on the exit path of `handleConnectionRequest` where building the response fails,
the request arriving with thread ID `thread1` at an address with the edge token `edge`, the
function returns an error and leaves the inbound payload with the thread ID `edge`. -/
theorem handleConnectionRequest_thread_not_restored :
    connection.exampleRequest.Payload.ThreadID = "thread1" ∧
      connection.exampleRequest.Address.EdgeToken = "edge" ∧
      (connection.handleConnectionRequest connection.exampleEnvPairwiseFails
        connection.exampleRequest (connection.entryState connection.exampleRequest)).1
        = .error (.error "connection req: cannot build connection response") ∧
      (connection.handleConnectionRequest connection.exampleEnvPairwiseFails
        connection.exampleRequest
        (connection.entryState connection.exampleRequest)).2.ipl.ThreadID = "edge" := by
  decide

/-! ## Theorems: the address round trip -/

namespace endp

theorem last_ne_slash_of_not_mem (f : String) (h : '/' ∉ f.data) :
    f.data.getLast? ≠ some '/' :=
  fun e => h (List.mem_of_getLast?_eq_some e)

/-- With a non-empty `PlRcvr` and no `/` in the segment fields, `Address` trims nothing. -/
theorem address_untrimmed (e : Addr) (hpl : e.PlRcvr ≠ "")
    (hP : '/' ∉ e.PlRcvr.data) (hM : '/' ∉ e.MsgRcvr.data) (hR : '/' ∉ e.RcvrDID.data)
    (hE : '/' ∉ e.EdgeToken.data) :
    e.Address = e.BasePath ++ "/" ++ e.Service ++ "/" ++ e.PlRcvr
      ++ optionalSegment e.MsgRcvr ++ optionalSegment e.RcvrDID
      ++ optionalSegment e.EdgeToken := by
  have hspec : e.Address = dropTrailingSlash (e.BasePath ++ "/" ++ e.Service ++ "/" ++ e.PlRcvr
      ++ optionalSegment e.MsgRcvr ++ optionalSegment e.RcvrDID
      ++ optionalSegment e.EdgeToken) := by
    unfold Addr.Address
    simp only [trimSuffix_slash, optionalSegment, ne_eq, ite_not]
    by_cases h1 : e.MsgRcvr = "" <;> by_cases h2 : e.RcvrDID = "" <;>
      by_cases h3 : e.EdgeToken = "" <;>
      simp only [h1, h2, h3, if_true, if_false, String.append_empty, String.append_assoc]
  rw [hspec]
  apply dropTrailingSlash_of_last
  have h0 : (e.BasePath ++ "/" ++ e.Service ++ "/" ++ e.PlRcvr).data.getLast? ≠ some '/' := by
    rw [last_append_of_ne _ _ hpl]
    exact last_ne_slash_of_not_mem _ hP
  exact last_optionalSegment _ _
    (last_optionalSegment _ _
      (last_optionalSegment _ _ h0 (last_ne_slash_of_not_mem _ hM))
      (last_ne_slash_of_not_mem _ hR))
    (last_ne_slash_of_not_mem _ hE)

end endp

/-- C28: for every `Addr` with empty `BasePath`, non-empty `Service` and `PlRcvr`, no `/` in
any segment field, and no empty field before a non-empty one among `MsgRcvr`, `RcvrDID`,
`EdgeToken`, the address parsed by `NewServerAddr` from `Address()` has the same `Service`,
`PlRcvr`, `MsgRcvr`, `RcvrDID` and `EdgeToken`. -/
theorem newServerAddr_address_roundtrip (a : endp.Addr) (hbase : a.BasePath = "")
    (_hsvc : a.Service ≠ "") (hpl : a.PlRcvr ≠ "")
    (hfree : ∀ f ∈ [a.Service, a.PlRcvr, a.MsgRcvr, a.RcvrDID, a.EdgeToken], '/' ∉ f.data)
    (horder : (a.RcvrDID ≠ "" → a.MsgRcvr ≠ "") ∧ (a.EdgeToken ≠ "" → a.RcvrDID ≠ "")) :
    (endp.NewServerAddr a.Address).Service = a.Service ∧
      (endp.NewServerAddr a.Address).PlRcvr = a.PlRcvr ∧
      (endp.NewServerAddr a.Address).MsgRcvr = a.MsgRcvr ∧
      (endp.NewServerAddr a.Address).RcvrDID = a.RcvrDID ∧
      (endp.NewServerAddr a.Address).EdgeToken = a.EdgeToken := by
  have hS := hfree a.Service (by simp)
  have hP := hfree a.PlRcvr (by simp)
  have hM := hfree a.MsgRcvr (by simp)
  have hR := hfree a.RcvrDID (by simp)
  have hE := hfree a.EdgeToken (by simp)
  rw [endp.address_untrimmed a hpl hP hM hR hE, hbase]
  by_cases eM : a.MsgRcvr = ""
  · have eR : a.RcvrDID = "" := by
      by_contra h
      exact horder.1 h eM
    have eE : a.EdgeToken = "" := by
      by_contra h
      exact horder.2 h eR
    rw [endp.newServerAddr_of_parts _ ["", a.Service, a.PlRcvr]]
    · exact ⟨rfl, rfl, eM.symm, eR.symm, eE.symm⟩
    · simp [endp.optionalSegment, eM, eR, eE, strings.splitChars_sep_cons,
        strings.splitChars_append, strings.splitChars_of_not_mem, hS, hP]
  · by_cases eR : a.RcvrDID = ""
    · have eE : a.EdgeToken = "" := by
        by_contra h
        exact horder.2 h eR
      rw [endp.newServerAddr_of_parts _ ["", a.Service, a.PlRcvr, a.MsgRcvr]]
      · exact ⟨rfl, rfl, rfl, eR.symm, eE.symm⟩
      · simp [endp.optionalSegment, eM, eR, eE, strings.splitChars_sep_cons,
          strings.splitChars_append, strings.splitChars_of_not_mem, hS, hP, hM]
    · by_cases eE : a.EdgeToken = ""
      · rw [endp.newServerAddr_of_parts _ ["", a.Service, a.PlRcvr, a.MsgRcvr, a.RcvrDID]]
        · exact ⟨rfl, rfl, rfl, rfl, eE.symm⟩
        · simp [endp.optionalSegment, eM, eR, eE, strings.splitChars_sep_cons,
            strings.splitChars_append, strings.splitChars_of_not_mem, hS, hP, hM, hR]
      · rw [endp.newServerAddr_of_parts _
          ["", a.Service, a.PlRcvr, a.MsgRcvr, a.RcvrDID, a.EdgeToken]]
        · exact ⟨rfl, rfl, rfl, rfl, rfl⟩
        · simp [endp.optionalSegment, eM, eR, eE, strings.splitChars_sep_cons,
            strings.splitChars_append, strings.splitChars_of_not_mem, hS, hP, hM, hR, hE]

/-- The statement of C28 at the address `/a2a/agentDID/msgDID/pwDID`. -/
theorem newServerAddr_address_roundtrip_witness :
    (endp.Addr.Address
        { Service := "a2a", PlRcvr := "agentDID", MsgRcvr := "msgDID", RcvrDID := "pwDID" })
        = "/a2a/agentDID/msgDID/pwDID" ∧
      (endp.NewServerAddr (endp.Addr.Address
        { Service := "a2a", PlRcvr := "agentDID", MsgRcvr := "msgDID", RcvrDID := "pwDID" })).RcvrDID
        = "pwDID" :=
  ⟨by decide,
    (newServerAddr_address_roundtrip
      { Service := "a2a", PlRcvr := "agentDID", MsgRcvr := "msgDID", RcvrDID := "pwDID" }
      rfl (by decide) (by decide) (by decide) (by decide)).2.2.2.1⟩

end Findy
